import Mathlib

set_option autoImplicit false
set_option maxRecDepth 8000

/-!
# Verification of the gallery-dl HTTP downloader core

A shallow embedding of `src/gallery_dl/downloader/http.py`
(`HttpDownloader._download_impl` and its helpers), with an explicit event
trace for requests, backoff sleeps, warnings, file writes, progress
reports and temp-file removal.  External collaborators that are not part
of the source under `src/` (the `requests` session, `pathfmt`, the
`text`/`util` helper modules, Python's `mimetypes`) are modelled as
environment parameters; each such modelling decision is noted on the
definition it concerns.
-/

namespace HttpDL

/-- A byte string, each entry a byte value `0..255`. -/
abbrev Bytes := List Nat

/-- Python slice `s[a:b]` on bytes (tolerant of short input). -/
def slice (s : Bytes) (a b : Nat) : Bytes := (s.drop a).take (b - a)

/-- ASCII whitespace bytes, as stripped by Python's `bytes.lstrip()`. -/
def isSpaceByte (c : Nat) : Bool := c = 32 || c = 9 || c = 10 || c = 13 || c = 11 || c = 12

/-- Lower-case an ASCII byte, as Python's `bytes.lower()` does per byte. -/
def lowerByte (c : Nat) : Nat := if 65 ≤ c ∧ c ≤ 90 then c + 32 else c

/-- The bytes of `b"<!doctype html"`. -/
def doctypeBytes : Bytes :=
  [60, 33, 100, 111, 99, 116, 121, 112, 101, 32, 104, 116, 109, 108]

/-- `_signature_html` (http.py lines 496-498): strip leading whitespace from
the first 14 bytes; non-empty and a lowercased prefix of `b"<!doctype html"`. -/
def signatureHtml (s : Bytes) : Bool :=
  let t := (s.take 14).dropWhile isSpaceByte
  decide (t ≠ []) && List.isPrefixOf (t.map lowerByte) doctypeBytes

/-- `SIGNATURE_CHECKS` (http.py lines 502-542): the ordered table of
magic-byte predicates.  A predicate returns `none` when evaluating the
Python lambda would raise: the only such case is avif's `s[11] in b"fs"`,
which raises `IndexError` when `s[4:11] == b"ftypavi"` holds but byte 11
is absent (a probe of length exactly 11); every other lambda only slices,
which Python truncates silently. -/
def SIGNATURE_CHECKS : List (String × (Bytes → Option Bool)) :=
  [ ("jpg" , fun s => some (slice s 0 3 == [0xFF, 0xD8, 0xFF])),
    ("png" , fun s => some (slice s 0 8 == [0x89, 80, 78, 71, 13, 10, 0x1A, 10])),
    ("gif" , fun s => some (slice s 0 6 == [71, 73, 70, 56, 55, 97] ||
                      slice s 0 6 == [71, 73, 70, 56, 57, 97])),
    ("bmp" , fun s => some (slice s 0 2 == [66, 77])),
    ("webp", fun s => some (slice s 0 4 == [82, 73, 70, 70] &&
                      slice s 8 12 == [87, 69, 66, 80])),
    ("avif", fun s => if slice s 4 11 == [102, 116, 121, 112, 97, 118, 105] then
                        match s.get? 11 with
                        | some c => some (c == 102 || c == 115)
                        | none => none
                      else some false),
    ("heic", fun s => some (slice s 4 10 == [102, 116, 121, 112, 104, 101] &&
                      ([[105, 99], [105, 109], [105, 115], [105, 120],
                        [118, 99], [118, 109], [118, 115]].contains (slice s 10 12)))),
    ("svg" , fun s => some (slice s 0 5 == [60, 63, 120, 109, 108])),
    ("ico" , fun s => some (slice s 0 4 == [0, 0, 1, 0])),
    ("cur" , fun s => some (slice s 0 4 == [0, 0, 2, 0])),
    ("psd" , fun s => some (slice s 0 4 == [56, 66, 80, 83])),
    ("mp4" , fun s => some (slice s 4 8 == [102, 116, 121, 112] &&
                      ([[109, 112, 52], [97, 118, 99], [105, 115, 111]].contains (slice s 8 11)))),
    ("m4v" , fun s => some (slice s 4 11 == [102, 116, 121, 112, 77, 52, 86])),
    ("mov" , fun s => some (slice s 4 12 == [102, 116, 121, 112, 113, 116, 32, 32])),
    ("webm", fun s => some (slice s 0 4 == [0x1A, 0x45, 0xDF, 0xA3])),
    ("ogg" , fun s => some (slice s 0 4 == [79, 103, 103, 83])),
    ("wav" , fun s => some (slice s 0 4 == [82, 73, 70, 70] &&
                      slice s 8 12 == [87, 65, 86, 69])),
    ("mp3" , fun s => some (slice s 0 3 == [73, 68, 51] ||
                      ([[0xFF, 0xFB], [0xFF, 0xF3], [0xFF, 0xF2]].contains (slice s 0 2)))),
    ("zip" , fun s => some ([[80, 75, 3, 4], [80, 75, 5, 6], [80, 75, 7, 8]].contains (slice s 0 4))),
    ("rar" , fun s => some (slice s 0 6 == [82, 97, 114, 33, 0x1A, 7])),
    ("7z"  , fun s => some (slice s 0 6 == [0x37, 0x7A, 0xBC, 0xAF, 0x27, 0x1C])),
    ("pdf" , fun s => some (slice s 0 5 == [37, 80, 68, 70, 45])),
    ("swf" , fun s => some ([[67, 87, 83], [70, 87, 83]].contains (slice s 0 3))),
    ("html", fun s => some (signatureHtml s)),
    ("htm" , fun s => some (signatureHtml s)),
    ("blend", fun s => some (slice s 0 7 == [66, 76, 69, 78, 68, 69, 82])),
    ("obj" , fun s => some (slice s 0 11 == [35, 32, 66, 108, 101, 110, 100, 101, 114, 32, 118])),
    ("clip", fun s => some (slice s 0 8 == [67, 83, 70, 67, 72, 85, 78, 75])),
    ("bin" , fun _ => some false) ]

/-- `MIME_TYPES` (http.py lines 441-493). -/
def MIME_TYPES : List (String × String) :=
  [ ("image/jpeg", "jpg"), ("image/jpg", "jpg"), ("image/png", "png"),
    ("image/gif", "gif"), ("image/bmp", "bmp"), ("image/x-bmp", "bmp"),
    ("image/x-ms-bmp", "bmp"), ("image/webp", "webp"), ("image/avif", "avif"),
    ("image/heic", "heic"), ("image/heif", "heif"), ("image/svg+xml", "svg"),
    ("image/ico", "ico"), ("image/icon", "ico"), ("image/x-icon", "ico"),
    ("image/vnd.microsoft.icon", "ico"), ("image/x-photoshop", "psd"),
    ("application/x-photoshop", "psd"), ("image/vnd.adobe.photoshop", "psd"),
    ("video/webm", "webm"), ("video/ogg", "ogg"), ("video/mp4", "mp4"),
    ("video/m4v", "m4v"), ("video/x-m4v", "m4v"), ("video/quicktime", "mov"),
    ("audio/wav", "wav"), ("audio/x-wav", "wav"), ("audio/webm", "webm"),
    ("audio/ogg", "ogg"), ("audio/mpeg", "mp3"),
    ("application/zip", "zip"), ("application/x-zip", "zip"),
    ("application/x-zip-compressed", "zip"), ("application/rar", "rar"),
    ("application/x-rar", "rar"), ("application/x-rar-compressed", "rar"),
    ("application/x-7z-compressed", "7z"), ("application/pdf", "pdf"),
    ("application/x-pdf", "pdf"), ("application/x-shockwave-flash", "swf"),
    ("text/html", "html"), ("application/ogg", "ogg"), ("model/obj", "obj"),
    ("application/octet-stream", "bin") ]

/-- Python `mtype.partition(";")[0]`: the characters before the first `';'`
(the whole string when there is none). -/
def stripParams (ct : String) : String := ((ct.toList.takeWhile (· ≠ ';')).asString)

/-- Lines 415-419 of `_find_extension`: strip parameters, then default the
type class to `image/` when no slash is present. -/
def normalizeMime (ct : String) : String :=
  let m := stripParams ct
  if m.toList.contains '/' then m else "image/" ++ m

/-- One item of a streaming response body, as yielded by
`response.iter_content(chunk_size)`: a data chunk, or a transport error
(`RequestException`/`SSLError`) raised while reading. -/
inductive StreamItem
  | data (bs : Bytes)
  | err (msg : String)
deriving DecidableEq, Repr

/-- An HTTP response as the downloader observes it: status, the handful of
headers it reads, redirect history, and the streaming body.  `challenge`
models `util.detect_challenge(response)` (the `util` module is not under
`src/`; the spec says only "attempt challenge detection and log it if
found").  `stopAfter`/`controlAfter` model the external `FLAGS.process`
hook raising `StopExtraction`/`ControlException` after the given number of
body chunks has been written (spec: cooperative pause/abort signal polled
between chunks). -/
structure Response where
  status : Nat
  reason : String := ""
  contentLength : Option String := none
  contentRange : Option String := none
  contentType : Option String := none
  url : String := ""
  history : Bool := false
  chunked : Bool := false
  lastModified : Option String := none
  challenge : Option String := none
  body : List StreamItem := []
  stopAfter : Option Nat := none
  controlAfter : Option Nat := none
deriving DecidableEq, Repr

/-- Result of one `session.request` call (http.py lines 153-177). -/
inductive ReqResult
  | connError (msg : String)
  | timeout (msg : String)
  | otherError (msg : String)
  | ok (r : Response)

/-- Result of the caller-supplied `_http_validate` callback, which in the
source is duck-typed: `True`, a falsy value, a URL string, or an exception. -/
inductive ValidateResult
  | accept
  | reject
  | newUrl (u : String)
  | raiseExc

/-- Result of the caller-supplied `_http_signature` callback: anything
other than `True` is a rejection, optionally carrying a message string
(`result or "Invalid file signature bytes"`). -/
inductive SigResult
  | isTrue
  | failure (msg : Option String)

/-- The external world of one invocation: the destination handle
(`pathfmt`) and the HTTP session.  `server n u k` answers the `n`-th
request of this invocation, issued for URL `u` with `k` bytes already on
disk.  `pathExists e` is `pathfmt.exists()` after a path rebuild with
extension `e`; `openNone n` models `pathfmt.open` returning `None`;
`guessExtension` is Python's `mimetypes.guess_extension(·, strict=False)`;
`elapsed n j` is the monotonic time elapsed since the stream of request
`n` started, sampled at its `j`-th chunk. -/
structure Env where
  url : String
  extension : String := "jpg"
  startBytes : Bytes := []
  server : Nat → String → Nat → ReqResult
  pathExists : String → Bool := fun _ => false
  openNone : Nat → Bool := fun _ => false
  guessExtension : String → Option String := fun _ => none
  elapsed : Nat → Nat → ℚ := fun _ _ => 0

/-- The per-task configuration, after `__init__` has parsed it, together
with the per-file `kwdict` overrides read at the top of `_download_impl`.
`minsize`/`maxsize` are `0` when unset (Python truthiness of
`self.minsize`); `retriesInf` models `retries < 0 → float("inf")`;
`adjustExtension` is the effective value after the
`_http_adjust_extension` override; `interval429` models a configured
`sleep-429` duration function by its value (`none` = falsy). -/
structure Cfg where
  retries : Nat
  retriesInf : Bool := false
  retryCodes : List Nat := []
  expectedStatus : List Nat := []
  minsize : Nat := 0
  maxsize : Nat := 0
  chunkSize : Nat := 32768
  adjustExtension : Bool := true
  validate : Bool := true
  validateHtml : Bool := true
  mtime : Bool := true
  part : Bool := true
  metadata : Bool := false
  interval429 : Option ℚ := none
  progress : Option ℚ := none
  rate : Option ℚ := none
  httpValidate : Option (Response → ValidateResult) := none
  httpRetry : Option (Response → Bool) := none
  httpSignature : Option (Bytes → SigResult) := none
  lastModified : Option String := none

/-- Warning-level log lines of `_download_impl`, tagged by call site. -/
inductive WTag
  | retry (msg : String) (tries : Nat)
  | exc (msg : String)
  | challenge (msg : String)
  | status (msg : String)
  | invalidResponse
  | htmlRedirect (url : String)
  | htmlResponse
  | sizeMin (size min : Nat)
  | sizeMax (size max : Nat)
  | signature (msg : String)
  | unknownMime (mtype : String)
deriving DecidableEq, Repr

/-- Observable events of one invocation, in order. -/
inductive Ev
  | sleep (q : ℚ)
  | request (url : String) (range : Option Nat)
  | warn (w : WTag)
  | releaseConn
  | closeConn
  | partEnable
  | rebuildPath (ext : String)
  | openFile (truncate : Bool)
  | write (bs : Bytes)
  | progressEv (total : Option Nat) (current : Nat) (rate : Int)
  | rateSleep (q : ℚ)
  | removeTemp
  | debug (msg : String)
deriving DecidableEq, Repr

/-- The mutable loop state of `_download_impl`.  `file` is the byte content
of the on-disk temp file (`pathfmt.part_size()` is its length);
`tempCleared` records `pathfmt.temppath = ""`; `reqIdx` counts requests
issued so far (it only indexes the environment). -/
structure LoopSt where
  url : String
  ext : String
  file : Bytes
  tries : Nat
  code : Nat
  msg : String
  reqIdx : Nat
  metadataPending : Bool
  tempCleared : Bool
  downloading : Bool
  hasResponse : Bool
deriving DecidableEq, Repr

/-- How one invocation ends.  `success`/`skipped`/`failed` are the
spec's tri-state outcome (`skipped` = the size-filter `return True` with
`temppath = ""`); the rest are exceptions propagating out of
`_download_impl`: a validator exception (line 212), `ControlException`
(line 342), and the `KeyError` for a 206 without `Content-Range`
(line 186). -/
inductive Outcome
  | success
  | skipped
  | failed
  | excValidate
  | excControl
  | crashKeyError
  | crashIndexError
deriving DecidableEq, Repr

/-- Result of one attempt: either finish the invocation or loop again. -/
inductive ARes
  | next (tr : List Ev) (st : LoopSt)
  | done (tr : List Ev) (o : Outcome) (st : LoopSt) (mt : Option (Option String))

/-- Prefix events onto an attempt result. -/
def ARes.pre (r : ARes) (tr : List Ev) : ARes :=
  match r with
  | .next t s => .next (tr ++ t) s
  | .done t o s m => .done (tr ++ t) o s m

/-- The events of an attempt result. -/
def ARes.tr : ARes → List Ev
  | .next t _ => t
  | .done t _ _ _ => t

/-- `text.parse_int(size, None)` applied to the declared size.  The `text`
module is not under `src/`; modelled from the spec ("declared total size,
nullable — unknown if absent from headers"): decimal digits parse to a
number, everything else is `None`. -/
def parseSize (s : Option String) : Option Nat :=
  match s with
  | none => none
  | some str =>
    let cs := str.toList
    if cs ≠ [] ∧ cs.all Char.isDigit then
      some (cs.foldl (fun n c => n * 10 + (c.toNat - 48)) 0)
    else none

/-- Python `s.rpartition("/")[2]`: the part after the last `'/'`, the whole
string when there is none (http.py line 186). -/
def afterLastSlash (s : String) : String := (s.splitOn "/").getLastD s

/-- `_find_extension` (http.py lines 413-428): normalized content type →
(extension, optionally the unknown MIME type that was warned about). -/
def findExtension (env : Env) (resp : Response) : String × Option String :=
  let mtype := normalizeMime (resp.contentType.getD "image/jpeg")
  match MIME_TYPES.lookup mtype with
  | some e => (e, none)
  | none =>
    match env.guessExtension mtype with
    | some e => ((e.toList.drop 1).asString, none)
    | none => ("bin", some mtype)

/-- The signature predicate of `ext` applied to `hdr`
(`SIGNATURE_CHECKS[pathfmt.extension](file_header)`); callers guard on the
key being present.  `none` = the predicate raised `IndexError`. -/
def sigCheck (ext : String) (hdr : Bytes) : Option Bool :=
  match SIGNATURE_CHECKS.lookup ext with
  | some f => f hdr
  | none => some false

/-- The `for ext, check in SIGNATURE_CHECKS.items()` scan of
`_adjust_extension` (http.py lines 433-437): the first extension whose
predicate matches is adopted; a predicate that raises aborts the scan
(`none` = the raised `IndexError` escapes; `some none` = nothing matched;
`some (some e)` = `e` adopted). -/
def scanSig (hdr : Bytes) : List (String × (Bytes → Option Bool)) → Option (Option String)
  | [] => some none
  | (e, f) :: rest =>
    match f hdr with
    | none => none
    | some true => some (some e)
    | some false => scanSig hdr rest

/-- `_adjust_extension` (http.py lines 430-438), reported as the adopted
extension: when the current extension's predicate rejects the header, the
first table entry whose predicate matches is adopted.  `none` = an
`IndexError` escaped (from the current extension's predicate or mid-scan);
`some none` = no change (the current predicate matched or nothing
matched); `some (some e)` = `e` adopted. -/
def adjustNewExt (ext : String) (hdr : Bytes) : Option (Option String) :=
  match sigCheck ext hdr with
  | none => none
  | some true => some none
  | some false => scanSig hdr SIGNATURE_CHECKS

/-- The message `f"'{code} {reason}' for '{url}'"` (http.py line 190). -/
def statusMsg (code : Nat) (reason url : String) : String :=
  "'" ++ toString code ++ " " ++ reason ++ "' for '" ++ url ++ "'"

/-- The message `f"file size mismatch ({tell} < {size})"` (line 346). -/
def mismatchMsg (tell size : Nat) : String :=
  "file size mismatch (" ++ toString tell ++ " < " ++ toString size ++ ")"

/-- How `recvGo` stopped consuming the stream. -/
inductive RecvRes
  | fin
  | errStream (m : String)
  | stopEx
  | controlEx
deriving DecidableEq, Repr

/-- The receiver loop (`receive` lines 375-381 / `_receive_rate` lines
383-411 — both write each chunk and poll `FLAGS`; the rate-aware one
additionally reports progress and sleeps to cap throughput, and is
selected exactly when `progress` or `rate` is configured, in which case
`cfg.progress`/`cfg.rate` are non-`none` here).  `i` is the request index
(for the clock), `j` the chunk index, `bd` = `bytes_downloaded` so far,
`bytesStart` = `bytes_start`. -/
def recvGo (env : Env) (cfg : Cfg) (i : Nat) (stopA controlA : Option Nat)
    (size : Option Nat) (bytesStart : Nat) :
    List StreamItem → Nat → Nat → Bytes → (List Ev × Bytes × RecvRes)
  | [], _, _, file => ([], file, .fin)
  | .err m :: _, _, _, file => ([], file, .errStream m)
  | .data bs :: rest, j, bd, file =>
    let te := env.elapsed i j
    let bd := bd + bs.length
    let file := file ++ bs
    if stopA = some j then ([Ev.write bs], file, .stopEx)
    else if controlA = some j then ([Ev.write bs], file, .controlEx)
    else
      let prog : List Ev :=
        match cfg.progress with
        | some p =>
          if te > p then [Ev.progressEv size (bytesStart + bd) (Rat.floor ((bd : ℚ) / te))]
          else []
        | none => []
      let rsl : List Ev :=
        match cfg.rate with
        | some r =>
          let texp := (bd : ℚ) / r
          if texp > te then [Ev.rateSleep (texp - te)] else []
        | none => []
      let res := recvGo env cfg i stopA controlA size bytesStart rest (j + 1) bd file
      (Ev.write bs :: (prog ++ rsl ++ res.1), res.2.1, res.2.2)

/-- The code after the `while` loop (http.py lines 352-361): clear the
`downloading` flag and record the `_mtime_http` value that is stored in
the kwdict.  Reached only by `break` paths. -/
def postLoop (cfg : Cfg) (st : LoopSt) (resp : Response) (tr : List Ev) : ARes :=
  let mt : Option String :=
    if cfg.mtime then
      match cfg.lastModified with
      | some lm => some lm
      | none => resp.lastModified
    else none
  .done tr .success {st with downloading := false} (some mt)

/-- Lines 306-350: choose the open mode from `offset`, open the file
(`break` to the post-loop code when `pathfmt.open` returns `None`), write
the header probe or re-check the extension of a resumed file (an
`IndexError` escaping from that re-check crashes the invocation), stream
the body, and classify the result (transport error → retry;
`StopExtraction` → `False`; `ControlException` → re-raise; short file →
retry; else `break`). -/
def openPhase (cfg : Cfg) (env : Env) (i : Nat) (st : LoopSt) (resp : Response)
    (offset : Nat) (size : Option Nat) (fileSize : Nat)
    (hdr : Option Bytes) (items : List StreamItem) : ARes :=
  let dbg : List Ev :=
    if offset = 0 then
      if fileSize ≠ 0 then [.debug "Unable to resume partial download"] else []
    else [.debug "Resuming download"]
  let st := {st with downloading := true}
  if env.openNone i then
    postLoop cfg st resp (dbg ++ [Ev.openFile (offset = 0)])
  else
    let file0 : Bytes := if offset = 0 then [] else st.file
    let hb : Bytes := hdr.getD []
    let stage? : Option (LoopSt × Bytes × Nat × List Ev) :=
      if hb ≠ [] then
        some (st, file0 ++ hb, offset + hb.length, [Ev.write hb])
      else if offset ≠ 0 then
        if cfg.adjustExtension && (SIGNATURE_CHECKS.lookup st.ext).isSome then
          match adjustNewExt st.ext (file0.take 16) with
          | none => none
          | some (some e) => some ({st with ext := e}, file0.take offset, offset, [Ev.rebuildPath e])
          | some none => some (st, file0.take offset, offset, ([] : List Ev))
        else some (st, file0.take offset, offset, ([] : List Ev))
      else some (st, file0, offset, ([] : List Ev))
    match stage? with
    | none => .done (dbg ++ [Ev.openFile (offset = 0)]) .crashIndexError st none
    | some stage =>
      let st := stage.1
      let recv := recvGo env cfg i resp.stopAfter resp.controlAfter size stage.2.2.1 items 0 0 stage.2.1
      let evs := dbg ++ [Ev.openFile (offset = 0)] ++ stage.2.2.2 ++ recv.1
      let st := {st with file := recv.2.1}
      match recv.2.2 with
      | .errStream m => .next evs {st with msg := m}
      | .stopEx => .done (evs ++ [Ev.closeConn]) .failed {st with hasResponse := false} none
      | .controlEx => .done (evs ++ [Ev.closeConn]) .excControl {st with hasResponse := false} none
      | .fin =>
        match size with
        | some s =>
          if s ≠ 0 ∧ st.file.length < s then
            .next evs {st with msg := mismatchMsg st.file.length s}
          else postLoop cfg st resp evs
        | none => postLoop cfg st resp evs

/-- The header probe read (http.py lines 286-289): `next(content)` for a
chunked transfer, else the first 16 raw bytes via `iter_content(16)`,
leaving the rest of the stream for the main receiver.  `body` models the
chunk sequence of `iter_content(chunk_size)`; for the non-chunked case the
probe consumes the first 16 bytes of the first chunk.  A transport error
on the first read is returned as `.inl msg`. -/
def probeSplit (resp : Response) : String ⊕ (Bytes × List StreamItem) :=
  match resp.body with
  | [] => .inr ([], [])
  | .err m :: _ => .inl m
  | .data bs :: rest =>
    if resp.chunked then .inr (bs, rest)
    else .inr (bs.take 16, if bs.drop 16 = [] then rest else .data (bs.drop 16) :: rest)

/-- Lines 278-304: on a fresh (offset 0) download with signature or
extension validation requested, read the header probe, run the
`_http_signature` callback, and run `_adjust_extension` (an `IndexError`
escaping from a signature predicate crashes the invocation); if the
adjustment changed the extension and the rebuilt path exists, report
success without consuming the body. -/
def streamSetupPhase (cfg : Cfg) (env : Env) (i : Nat) (st : LoopSt) (resp : Response)
    (offset : Nat) (size : Option Nat) (fileSize : Nat) : ARes :=
  let validateExt := cfg.adjustExtension && (SIGNATURE_CHECKS.lookup st.ext).isSome
  if offset = 0 ∧ (validateExt || cfg.httpSignature.isSome) then
    match probeSplit resp with
    | .inl m => .next [] {st with msg := m}
    | .inr (hb, rest) =>
      let extCheck : LoopSt → ARes := fun st =>
        if validateExt then
          match adjustNewExt st.ext hb with
          | none => .done [] .crashIndexError st none
          | some (some e) =>
            if env.pathExists e then
              .done [Ev.rebuildPath e, Ev.closeConn] .success
                {st with ext := e, tempCleared := true, hasResponse := false} none
            else
              (openPhase cfg env i {st with ext := e} resp offset size fileSize
                (some hb) rest).pre [Ev.rebuildPath e]
          | some none => openPhase cfg env i st resp offset size fileSize (some hb) rest
        else openPhase cfg env i st resp offset size fileSize (some hb) rest
      match cfg.httpSignature with
      | some f =>
        match f hb with
        | .isTrue => extCheck st
        | .failure mo =>
          .done [Ev.releaseConn, Ev.warn (.signature (mo.getD "Invalid file signature bytes"))]
            .failed {st with hasResponse := false} none
      | none => extCheck st
  else
    openPhase cfg env i st resp offset size fileSize none resp.body

/-- Lines 248-276: derive a missing extension from the MIME type, merge
header metadata, rebuild the path and stop with success if the final path
already exists, else enable the `.part` file that was deferred for
metadata. -/
def pathPhase (cfg : Cfg) (env : Env) (i : Nat) (st : LoopSt) (resp : Response)
    (offset : Nat) (size : Option Nat) (fileSize : Nat) : ARes :=
  let stage :=
    if st.ext = "" then
      let fr := findExtension env resp
      ({st with ext := fr.1},
       (match fr.2 with
        | some m => [Ev.warn (.unknownMime m)]
        | none => []),
       true)
    else (st, ([] : List Ev), false)
  let st := stage.1
  let evs1 := stage.2.1
  if stage.2.2 || st.metadataPending then
    let evs := evs1 ++ [Ev.rebuildPath st.ext]
    if env.pathExists st.ext then
      .done (evs ++ [Ev.closeConn]) .success
        {st with tempCleared := true, hasResponse := false, metadataPending := false} none
    else
      let evs := evs ++ (if cfg.part && st.metadataPending then [Ev.partEnable] else [])
      (streamSetupPhase cfg env i {st with metadataPending := false} resp offset size
        fileSize).pre evs
  else
    (streamSetupPhase cfg env i st resp offset size fileSize).pre evs1

/-- Lines 230-246: the declared-size filter.  Out-of-bounds sizes release
the connection, clear the temp path and return `True` (the `skipped`
outcome). -/
def sizePhase (cfg : Cfg) (env : Env) (i : Nat) (st : LoopSt) (resp : Response)
    (offset : Nat) (sizeRaw : Option String) (fileSize : Nat) : ARes :=
  match parseSize sizeRaw with
  | some s =>
    if cfg.minsize ≠ 0 ∧ s < cfg.minsize then
      .done [Ev.releaseConn, Ev.warn (.sizeMin s cfg.minsize)] .skipped
        {st with tempCleared := true, hasResponse := false} none
    else if cfg.maxsize ≠ 0 ∧ s > cfg.maxsize then
      .done [Ev.releaseConn, Ev.warn (.sizeMax s cfg.maxsize)] .skipped
        {st with tempCleared := true, hasResponse := false} none
    else pathPhase cfg env i st resp offset (some s) fileSize
  | none => pathPhase cfg env i st resp offset none fileSize

/-- Lines 205-228: the `_http_validate` callback (accept / reject /
substitute URL, the substitution decrementing `tries`) and the
`text/html` content-type rejection (note: no connection release on the
html path, as in the source). -/
def validatePhase (cfg : Cfg) (env : Env) (i : Nat) (st : LoopSt) (resp : Response)
    (offset : Nat) (sizeRaw : Option String) (fileSize : Nat) : ARes :=
  let vres : Option ValidateResult :=
    if cfg.validate then cfg.httpValidate.map (fun f => f resp) else none
  match vres with
  | some .raiseExc => .done [Ev.releaseConn] .excValidate {st with hasResponse := false} none
  | some (.newUrl u) => .next [] {st with url := u, tries := st.tries - 1}
  | some .reject =>
    .done [Ev.releaseConn, Ev.warn .invalidResponse] .failed {st with hasResponse := false} none
  | _ =>
    if cfg.validateHtml && (resp.contentType.getD "").startsWith "text/html"
        && !(st.ext = "html" || st.ext = "htm") then
      if resp.history then .done [Ev.warn (.htmlRedirect resp.url)] .failed st none
      else .done [Ev.warn .htmlResponse] .failed st none
    else sizePhase cfg env i st resp offset sizeRaw fileSize

/-- The warning events emitted for a detected challenge (lines 192-194). -/
def chlEvs (resp : Response) : List Ev :=
  match resp.challenge with
  | some c => [Ev.warn (.challenge c)]
  | none => []

/-- Lines 179-203: classify the status code.  200/expected → full content;
206 → resume (a missing `Content-Range` raises `KeyError`); 416 with a
non-empty partial file → `break` to the post-loop success; anything else
logs a detected challenge, retries on configured/5xx codes or a true
`_http_retry` predicate, and otherwise fails. -/
def statusPhase (cfg : Cfg) (env : Env) (i : Nat) (st : LoopSt) (resp : Response)
    (fileSize : Nat) : ARes :=
  if resp.status = 200 ∨ resp.status ∈ cfg.expectedStatus then
    validatePhase cfg env i st resp 0 resp.contentLength fileSize
  else if resp.status = 206 then
    match resp.contentRange with
    | none => .done [] .crashKeyError st none
    | some cr => validatePhase cfg env i st resp fileSize (some (afterLastSlash cr)) fileSize
  else if resp.status = 416 ∧ fileSize ≠ 0 then
    postLoop cfg st resp []
  else
    let m := statusMsg resp.status resp.reason st.url
    if resp.status ∈ cfg.retryCodes ∨ (500 ≤ resp.status ∧ resp.status < 600) then
      .next (chlEvs resp) {st with msg := m}
    else if (match cfg.httpRetry with | some f => f resp | none => false) then
      .next (chlEvs resp) {st with msg := m}
    else
      .done (chlEvs resp ++ [Ev.releaseConn, Ev.warn (.status m)]) .failed
        {st with hasResponse := false, msg := m} none

/-- Lines 137-177: count the attempt, build the `Range` header from the
partial-file size, and issue the request.  Connection errors and timeouts
record a message and retry; any other exception warns and fails. -/
def requestPhase (cfg : Cfg) (env : Env) (st : LoopSt) : ARes :=
  let st := {st with tries := st.tries + 1}
  let fileSize := st.file.length
  let rng : Option Nat := if fileSize ≠ 0 then some fileSize else none
  let i := st.reqIdx
  let st := {st with reqIdx := i + 1}
  match env.server i st.url fileSize with
  | .connError m => .next [Ev.request st.url rng] {st with msg := m}
  | .timeout m => .next [Ev.request st.url rng] {st with msg := m}
  | .otherError m => .done [Ev.request st.url rng, Ev.warn (.exc m)] .failed st none
  | .ok resp =>
    (statusPhase cfg env i {st with hasResponse := true, code := resp.status} resp
      fileSize).pre [Ev.request st.url rng]

/-- One iteration of the `while True` loop (lines 120-350): the retry-wait
block (release the previous response, warn, give up past the budget,
back off — `max(interval429, tries)` seconds after a 429 when a 429
backoff is configured, else `tries` seconds), then the attempt itself. -/
def attemptStep (cfg : Cfg) (env : Env) (st : LoopSt) : ARes :=
  if st.tries = 0 then requestPhase cfg env st
  else
    let tr1 : List Ev :=
      (if st.hasResponse then [Ev.releaseConn] else []) ++ [Ev.warn (.retry st.msg st.tries)]
    let st := {st with hasResponse := false}
    if !cfg.retriesInf && st.tries > cfg.retries then
      .done tr1 .failed st none
    else
      let slp : ℚ :=
        if st.code = 429 then
          match cfg.interval429 with
          | some s => if s > (st.tries : ℚ) then s else (st.tries : ℚ)
          | none => (st.tries : ℚ)
        else (st.tries : ℚ)
      (requestPhase cfg env {st with code := 0}).pre (tr1 ++ [Ev.sleep slp])

/-- The final state of one invocation. -/
structure RunEnd where
  outcome : Outcome
  trace : List Ev
  st : LoopSt
  mtime : Option (Option String)
deriving DecidableEq, Repr

/-- Drive `attemptStep` to a terminal outcome, with fuel (`none` = fuel
exhausted; the loop itself need not terminate, e.g. under a validator that
always substitutes a URL). -/
def loop (cfg : Cfg) (env : Env) : Nat → LoopSt → Option RunEnd
  | 0, _ => none
  | fuel + 1, st =>
    match attemptStep cfg env st with
    | .done tr o st' mt => some ⟨o, tr, st', mt⟩
    | .next tr st' => (loop cfg env fuel st').map fun r => {r with trace := tr ++ r.trace}

/-- The loop state at the start of an invocation (lines 105-118). -/
def initSt (cfg : Cfg) (env : Env) : LoopSt :=
  { url := env.url, ext := env.extension, file := env.startBytes, tries := 0, code := 0,
    msg := "", reqIdx := 0, metadataPending := cfg.metadata, tempCleared := false,
    downloading := false, hasResponse := false }

/-- `_download_impl` (lines 105-361), with the pre-loop `part_enable`. -/
def downloadImpl (cfg : Cfg) (env : Env) (fuel : Nat) : Option RunEnd :=
  let pre : List Ev := if cfg.part && !cfg.metadata then [Ev.partEnable] else []
  (loop cfg env fuel (initSt cfg env)).map fun r => {r with trace := pre ++ r.trace}

/-- `download` (lines 92-103): run `_download_impl`; in the `finally`
block, remove the temp file exactly when the `downloading` flag is still
set and `.part` files are disabled (`util.remove_file` on a cleared
`temppath` is a no-op). -/
def download (cfg : Cfg) (env : Env) (fuel : Nat) : Option RunEnd :=
  (downloadImpl cfg env fuel).map fun r =>
    if r.st.downloading && !cfg.part then
      {r with trace := r.trace ++ [Ev.removeTemp],
              st := {r.st with file := if r.st.tempCleared then r.st.file else []}}
    else r

/-! ### Trace observations -/

/-- Is this event a request being issued? -/
def isReqEv : Ev → Bool
  | .request _ _ => true
  | _ => false

/-- Is this event a warning-level log line? -/
def isWarnEv : Ev → Bool
  | .warn _ => true
  | _ => false

/-- Is this event a write to the destination file? -/
def isWriteEv : Ev → Bool
  | .write _ => true
  | _ => false

/-- Is this event a progress report? -/
def isProgressEv : Ev → Bool
  | .progressEv _ _ _ => true
  | _ => false

/-- A warning line that describes the cause of a failure/skip, as opposed
to the auxiliary challenge-detection and unknown-MIME-type notices. -/
def isCauseWarn : Ev → Bool
  | .warn (.challenge _) => false
  | .warn (.unknownMime _) => false
  | .warn _ => true
  | _ => false

/-- Number of request events in a trace. -/
def reqCount (tr : List Ev) : Nat := tr.countP isReqEv

/-- Number of warning events in a trace. -/
def warnCount (tr : List Ev) : Nat := tr.countP isWarnEv

/-- Number of cause-describing warnings in a trace. -/
def causeCount (tr : List Ev) : Nat := tr.countP isCauseWarn

/-- The backoff sleeps of a trace, in order. -/
def backoffSleeps (tr : List Ev) : List ℚ :=
  tr.filterMap fun e => match e with | .sleep q => some q | _ => none

/-- Split a trace at its request events: entry `0` is everything before
the first request, entry `n ≥ 1` is everything after the `n`-th request up
to (not including) the next one. -/
def reqSegs : List Ev → List (List Ev)
  | [] => [[]]
  | .request _ _ :: tr => [] :: reqSegs tr
  | e :: tr =>
    match reqSegs tr with
    | s :: ss => (e :: s) :: ss
    | [] => [[e]]

/-- The events after the last request of a trace (the whole trace when it
contains no request). -/
def afterLastReq (tr : List Ev) : List Ev :=
  (tr.reverse.takeWhile (fun e => !isReqEv e)).reverse

/-- A trace with no request events. -/
def evsFreeB (tr : List Ev) : Bool := tr.all fun e => !isReqEv e

/-- The per-attempt warning discipline behind the failure-warning rule: an
attempt that loops again emits no request and no cause-describing warning
inside the loop body (the request itself is prepended by the request
phase), and an attempt that ends the invocation as `Failed`/`Skipped`
emits exactly one cause-describing warning. -/
def causeOk (r : ARes) : Prop :=
  match r with
  | .next tr _ => evsFreeB tr = true ∧ causeCount tr = 0
  | .done tr o _ _ =>
    evsFreeB tr = true ∧
      ((o = .failed ∨ o = .skipped) → causeCount tr = 1)

/-- The data bytes of a stream item. -/
def dataBytes : StreamItem → Bytes
  | .data bs => bs
  | .err _ => []

/-- A stream with no transport errors. -/
def allData (items : List StreamItem) : Bool :=
  items.all fun it => match it with | .data _ => true | .err _ => false

/-- The concatenated bytes of a stream. -/
def concatData (items : List StreamItem) : Bytes := (items.map dataBytes).flatten

/-- A declared size that does not fall foul of the configured bounds. -/
def inRangeOpt (cfg : Cfg) (o : Option Nat) : Prop :=
  ∀ s, o = some s →
    (cfg.minsize ≠ 0 → cfg.minsize ≤ s) ∧ (cfg.maxsize ≠ 0 → s ≤ cfg.maxsize)

/-- Both declared sizes a response can carry (`Content-Length` for a
200-family status, the `Content-Range` total for a 206) are within the
configured bounds or unparseable. -/
def sizeOkResp (cfg : Cfg) (resp : Response) : Prop :=
  inRangeOpt cfg (parseSize resp.contentLength) ∧
  inRangeOpt cfg (parseSize (resp.contentRange.map afterLastSlash))

/-- Does an attempt result end the invocation with the `skipped` outcome? -/
def isSkippedRes : ARes → Bool
  | .done _ .skipped _ _ => true
  | _ => false

/-- A response stream that never triggers a `StopExtraction` abort. -/
def noStopResp (resp : Response) : Prop := resp.stopAfter = none

/-- The canonical trace tail of a run whose server keeps answering with
retryable statuses: starting at the retry-wait with `tries = t`, warn,
then (while the budget lasts) sleep `t` seconds, issue request number `t`
(answered by `resps t`), and recurse. -/
def c1Tail (u : String) (rng : Option Nat) (resps : Nat → Response) (r : Nat) (t : Nat) :
    List Ev :=
  let m := statusMsg (resps (t - 1)).status (resps (t - 1)).reason u
  if t > r then [Ev.releaseConn, Ev.warn (.retry m t)]
  else
    [Ev.releaseConn, Ev.warn (.retry m t), Ev.sleep (t : ℚ), Ev.request u rng] ++
      chlEvs (resps t) ++ c1Tail u rng resps r (t + 1)
termination_by r + 1 - t
decreasing_by simp_all; omega

/-- Segment `n` (for `1 ≤ n ≤ r`) of the canonical always-retry trace. -/
def c1Seg (u : String) (resps : Nat → Response) (n : Nat) : List Ev :=
  let m := statusMsg (resps (n - 1)).status (resps (n - 1)).reason u
  chlEvs (resps (n - 1)) ++ [Ev.releaseConn, Ev.warn (.retry m n), Ev.sleep (n : ℚ)]

/-- The final segment of the canonical always-retry trace. -/
def c1LastSeg (u : String) (resps : Nat → Response) (r : Nat) : List Ev :=
  let m := statusMsg (resps r).status (resps r).reason u
  chlEvs (resps r) ++ [Ev.releaseConn, Ev.warn (.retry m (r + 1))]

/-- A response the status classifier sends to the retry path: not
accepted, not a resume, not an already-complete 416, and carrying a
configured retry code or a 5xx code. -/
def retryStatus (cfg : Cfg) (fileSize : Nat) (resp : Response) : Prop :=
  ¬(resp.status = 200 ∨ resp.status ∈ cfg.expectedStatus) ∧
  resp.status ≠ 206 ∧
  ¬(resp.status = 416 ∧ fileSize ≠ 0) ∧
  (resp.status ∈ cfg.retryCodes ∨ (500 ≤ resp.status ∧ resp.status < 600))

/-- The progress-report schedule of the rate-aware receiver, written out
from the (amended) specification: after each chunk, report exactly when an
interval is configured and the time elapsed since the stream started
exceeds it, carrying the declared total, the resumed offset plus the bytes
of this stream so far, and the rate computed from this stream's bytes
alone. -/
def progressSched (env : Env) (cfg : Cfg) (i : Nat) (size : Option Nat) (bytesStart : Nat) :
    List StreamItem → Nat → Nat → List Ev
  | [], _, _ => []
  | it :: rest, j, bd =>
    let te := env.elapsed i j
    let bd := bd + (dataBytes it).length
    (match cfg.progress with
     | some p =>
       if te > p then [Ev.progressEv size (bytesStart + bd) (Rat.floor ((bd : ℚ) / te))]
       else []
     | none => []) ++ progressSched env cfg i size bytesStart rest (j + 1) bd

/-- The emission schedule claimed by the specification sentence "if a
progress interval is set and elapsed time since the last report exceeds
it, emit a progress update": one flag per chunk, tracking the time of the
last report. -/
def lastReportFlags (p : ℚ) : ℚ → List ℚ → List Bool
  | _, [] => []
  | last, te :: rest =>
    if te - last > p then true :: lastReportFlags p te rest
    else false :: lastReportFlags p last rest

/-! ### Concrete scenarios used by witnesses and counterexamples -/

/-- A fresh loop state for URL `u`, extension `ext`, on-disk bytes `file`. -/
def mkSt (u ext : String) (file : Bytes) : LoopSt :=
  { url := u, ext := ext, file := file, tries := 0, code := 0, msg := "", reqIdx := 0,
    metadataPending := false, tempCleared := false, downloading := false, hasResponse := false }

/-- A server always answering `503`. -/
def respSU : Response := { status := 503, reason := "Service Unavailable" }

/-- Environment whose server always answers `503`. -/
def env503 : Env := { url := "http://x/f.jpg", server := fun _ _ _ => .ok respSU }

/-- A server always answering `429`. -/
def resp429 : Response := { status := 429, reason := "Too Many Requests" }

/-- Environment whose server always answers `429`. -/
def env429 : Env := { url := "http://x/f.jpg", server := fun _ _ _ => .ok resp429 }

/-- Task with one retry, `429` retryable, and a 10-second 429 backoff. -/
def cfg429 : Cfg := { retries := 1, retryCodes := [429], interval429 := some 10 }

/-- A `200` whose stream triggers a `StopExtraction` abort after the first
written chunk. -/
def respStop : Response := { status := 200, body := [.data [1]], stopAfter := some 0 }

/-- Environment delivering `respStop`. -/
def envStop : Env := { url := "http://x/f.jpg", server := fun _ _ _ => .ok respStop }

/-- Task with extension adjustment off (so no header probe is taken). -/
def cfgNoAdj : Cfg := { retries := 4, adjustExtension := false }

/-- A `200` whose stream yields one chunk and then a transport error. -/
def respErrBody : Response := { status := 200, body := [.data [7], .err "reset"] }

/-- Environment delivering `respErrBody`. -/
def envErrBody : Env := { url := "http://x/f.jpg", server := fun _ _ _ => .ok respErrBody }

/-- Task with no retries and extension adjustment off. -/
def cfgPlain0 : Cfg := { retries := 0, adjustExtension := false }

/-- Task with no retries, no extension adjustment and `.part` files
disabled. -/
def cfgNoPart0 : Cfg := { retries := 0, adjustExtension := false, part := false }

/-- A `200` from URL "A". -/
def respA : Response := { status := 200, url := "A" }

/-- A `200` from URL "B". -/
def respB : Response := { status := 200, url := "B" }

/-- Server: first a `503`, then a `200` from "A", then `200`s from "B". -/
def subServer : Nat → String → Nat → ReqResult := fun n _ _ =>
  if n = 0 then .ok respSU else if n = 1 then .ok respA else .ok respB

/-- Environment for the URL-substitution scenario. -/
def envSub : Env := { url := "A", server := subServer }

/-- Validator that substitutes URL "B" for responses served from "A". -/
def subValidator : Response → ValidateResult := fun r =>
  if r.url = "A" then .newUrl "B" else .accept

/-- Environment whose server always answers with `respA`. -/
def envSubA : Env := { url := "A", server := fun _ _ _ => .ok respA }

/-- Task with the substituting validator. -/
def cfgSub : Cfg := { retries := 2, httpValidate := some subValidator }

/-- A `416` with a `Last-Modified` header. -/
def resp416 : Response := { status := 416, reason := "Range Not Satisfiable",
                            lastModified := some "LM" }

/-- Environment whose server always answers `416`. -/
def env416 : Env := { url := "http://x/f.jpg", server := fun _ _ _ => .ok resp416 }

/-- A `200` declaring a 5-byte size. -/
def respLen5 : Response := { status := 200, contentLength := some "5",
                             body := [.data [1, 2, 3, 4, 5]] }

/-- Environment delivering `respLen5`. -/
def envLen5 : Env := { url := "http://x/f.jpg", server := fun _ _ _ => .ok respLen5 }

/-- Environment delivering `respLen5` with a 1-byte partial already on
disk from an earlier interrupted download. -/
def envLen5Part : Env := { url := "http://x/f.jpg", startBytes := [9],
                           server := fun _ _ _ => .ok respLen5 }

/-- Task demanding at least 10 bytes. -/
def cfgMin10 : Cfg := { retries := 0, minsize := 10 }

/-- A `200` with a fresh 2-byte body, for the discarded-resume scenario. -/
def respFresh : Response := { status := 200, body := [.data [9, 8]] }

/-- Environment delivering `respFresh`. -/
def envFresh : Env := { url := "http://x/f.jpg", server := fun _ _ _ => .ok respFresh }

/-- A MIME-guessing function for the extension-resolver scenarios. -/
def guessWrd : String → Option String := fun m =>
  if m = "application/weird" then some ".wrd" else none

/-- Environment with `guessWrd` as the system MIME resolver. -/
def envGuess : Env :=
  { url := "http://x/f", server := fun _ _ _ => .connError "x", guessExtension := guessWrd }

/-! ### Trace lemmas -/

theorem reqSegs_ne_nil (tr : List Ev) : reqSegs tr ≠ [] := by
  induction tr with
  | nil => simp [reqSegs]
  | cons e tr ih => cases e <;> simp only [reqSegs] <;> (try split) <;> simp_all

theorem reqSegs_cons_not_req (e : Ev) (tr : List Ev) (h : isReqEv e = false) :
    reqSegs (e :: tr) = (e :: (reqSegs tr).headD []) :: (reqSegs tr).tail := by
  rcases hr : reqSegs tr with _ | ⟨s, ss⟩
  · exact absurd hr (reqSegs_ne_nil tr)
  · cases e <;> simp_all [reqSegs, isReqEv]

theorem reqSegs_append_free (a b : List Ev) (h : ∀ e ∈ a, isReqEv e = false) :
    reqSegs (a ++ b) = (a ++ (reqSegs b).headD []) :: (reqSegs b).tail := by
  induction a with
  | nil =>
    rcases hr : reqSegs b with _ | ⟨s, ss⟩
    · exact absurd hr (reqSegs_ne_nil b)
    · simp [hr]
  | cons e a ih =>
    have he : isReqEv e = false := h e (by simp)
    have ih' := ih (fun x hx => h x (by simp [hx]))
    rw [List.cons_append, reqSegs_cons_not_req e _ he, ih']
    simp

theorem reqSegs_free (a : List Ev) (h : ∀ e ∈ a, isReqEv e = false) :
    reqSegs a = [a] := by
  have := reqSegs_append_free a [] h
  simpa [reqSegs] using this

theorem length_reqSegs (tr : List Ev) : (reqSegs tr).length = reqCount tr + 1 := by
  induction tr with
  | nil => rfl
  | cons e tr ih =>
    rcases hr : reqSegs tr with _ | ⟨s, ss⟩
    · exact absurd hr (reqSegs_ne_nil tr)
    · cases e <;> simp_all [reqSegs, reqCount, List.countP_cons, isReqEv]

theorem backoffSleeps_append (a b : List Ev) :
    backoffSleeps (a ++ b) = backoffSleeps a ++ backoffSleeps b :=
  List.filterMap_append ..

theorem backoffSleeps_chl (resp : Response) : backoffSleeps (chlEvs resp) = [] := by
  unfold chlEvs
  split <;> simp [backoffSleeps]

theorem chlEvs_free (resp : Response) : ∀ e ∈ chlEvs resp, isReqEv e = false := by
  unfold chlEvs
  split <;> simp [isReqEv]

/-! ### Step-computation lemmas -/

theorem statusPhase_retry (cfg : Cfg) (env : Env) (i : Nat) (st : LoopSt) (resp : Response)
    (fs : Nat) (h : retryStatus cfg fs resp) :
    statusPhase cfg env i st resp fs =
      .next (chlEvs resp) {st with msg := statusMsg resp.status resp.reason st.url} := by
  obtain ⟨h1, h2, h3, h4⟩ := h
  simp [statusPhase, h1, h2, h3, h4]

theorem requestPhase_ok (cfg : Cfg) (env : Env) (st : LoopSt) (resp : Response)
    (h : env.server st.reqIdx st.url st.file.length = .ok resp) :
    requestPhase cfg env st =
      (statusPhase cfg env st.reqIdx
        {st with tries := st.tries + 1, reqIdx := st.reqIdx + 1,
                 hasResponse := true, code := resp.status} resp st.file.length).pre
        [Ev.request st.url (if st.file.length ≠ 0 then some st.file.length else none)] := by
  simp only [requestPhase, h]

theorem attemptStep_tries0 (cfg : Cfg) (env : Env) (st : LoopSt) (h : st.tries = 0) :
    attemptStep cfg env st = requestPhase cfg env st := by
  simp [attemptStep, h]

theorem attemptStep_exhausted (cfg : Cfg) (env : Env) (st : LoopSt)
    (h0 : st.tries ≠ 0) (hinf : cfg.retriesInf = false) (h : st.tries > cfg.retries) :
    attemptStep cfg env st =
      .done ((if st.hasResponse then [Ev.releaseConn] else []) ++
              [Ev.warn (.retry st.msg st.tries)]) .failed
        {st with hasResponse := false} none := by
  simp [attemptStep, h0, hinf, h]

theorem attemptStep_wait (cfg : Cfg) (env : Env) (st : LoopSt)
    (h0 : st.tries ≠ 0) (hinf : cfg.retriesInf = false) (h : ¬st.tries > cfg.retries)
    (h429 : ¬(st.code = 429 ∧ cfg.interval429.isSome)) :
    attemptStep cfg env st =
      (requestPhase cfg env {st with hasResponse := false, code := 0}).pre
        ((if st.hasResponse then [Ev.releaseConn] else []) ++
          [Ev.warn (.retry st.msg st.tries), Ev.sleep (st.tries : ℚ)]) := by
  have hslp : (if st.code = 429 then
      match cfg.interval429 with
      | some s => if s > (st.tries : ℚ) then s else (st.tries : ℚ)
      | none => (st.tries : ℚ)
      else (st.tries : ℚ)) = (st.tries : ℚ) := by
    rcases Decidable.em (st.code = 429) with h4 | h4
    · rcases hi : cfg.interval429 with _ | s
      · simp [h4, hi]
      · exact absurd ⟨h4, by simp [hi]⟩ h429
    · simp [h4]
  simp only [attemptStep, h0, hinf, h, if_neg, ite_false, Bool.not_false, if_false]
  simp [h0, hinf, h, hslp]

theorem loop_next (cfg : Cfg) (env : Env) (fuel : Nat) (st st' : LoopSt) (tr : List Ev)
    (h : attemptStep cfg env st = .next tr st') :
    loop cfg env (fuel + 1) st =
      (loop cfg env fuel st').map fun r => {r with trace := tr ++ r.trace} := by
  simp [loop, h]

theorem loop_done (cfg : Cfg) (env : Env) (fuel : Nat) (st st' : LoopSt) (tr : List Ev)
    (o : Outcome) (mt : Option (Option String))
    (h : attemptStep cfg env st = .done tr o st' mt) :
    loop cfg env (fuel + 1) st = some ⟨o, tr, st', mt⟩ := by
  simp [loop, h]

/-! ### The always-retry run (claim C1) -/

theorem c1Tail_last (u : String) (rng : Option Nat) (resps : Nat → Response) (r t : Nat)
    (h : t > r) :
    c1Tail u rng resps r t =
      [Ev.releaseConn,
       Ev.warn (.retry (statusMsg (resps (t - 1)).status (resps (t - 1)).reason u) t)] := by
  rw [c1Tail]
  simp [h]

theorem c1Tail_go (u : String) (rng : Option Nat) (resps : Nat → Response) (r t : Nat)
    (h : ¬t > r) :
    c1Tail u rng resps r t =
      [Ev.releaseConn,
       Ev.warn (.retry (statusMsg (resps (t - 1)).status (resps (t - 1)).reason u) t),
       Ev.sleep (t : ℚ), Ev.request u rng] ++
        chlEvs (resps t) ++ c1Tail u rng resps r (t + 1) := by
  rw [c1Tail]
  simp [h]

theorem c1_loop (cfg : Cfg) (env : Env) (resps : Nat → Response) (u : String)
    (rng : Option Nat) (fb : Bytes) (r : Nat)
    (hinf : cfg.retriesInf = false) (hr : cfg.retries = r)
    (hsrv : ∀ n, env.server n u fb.length = .ok (resps n))
    (hret : ∀ n, retryStatus cfg fb.length (resps n))
    (h429 : ∀ n, ¬((resps n).status = 429 ∧ cfg.interval429.isSome))
    (hrng : rng = if fb.length ≠ 0 then some fb.length else none) :
    ∀ fuel t st, 1 ≤ t → t ≤ r + 1 → r + 2 - t ≤ fuel →
      st.tries = t → st.hasResponse = true → st.url = u → st.file = fb →
      st.code = (resps (t - 1)).status →
      st.msg = statusMsg (resps (t - 1)).status (resps (t - 1)).reason u →
      st.reqIdx = t →
      ∃ stf, loop cfg env fuel st = some ⟨.failed, c1Tail u rng resps r t, stf, none⟩ ∧
        stf.downloading = st.downloading := by
  intro fuel
  induction fuel with
  | zero => intro t st h1 h2 h3 _ _ _ _ _ _ _; omega
  | succ fuel ih =>
    intro t st h1 h2 h3 htr hhr hurl hfile hcode hmsg hreq
    by_cases hgt : t > r
    · have hdone := attemptStep_exhausted cfg env st (by omega) hinf (by rw [htr, hr]; omega)
      rw [hhr] at hdone
      refine ⟨{st with hasResponse := false}, ?_, rfl⟩
      rw [loop_done cfg env fuel _ _ _ _ _ hdone]
      rw [c1Tail_last u rng resps r t hgt]
      simp [htr, hmsg]
    · have h429t : ¬(st.code = 429 ∧ cfg.interval429.isSome) := by
        rw [hcode]; exact h429 (t - 1)
      have hwait := attemptStep_wait cfg env st (by omega) hinf (by rw [htr, hr]; omega) h429t
      set st' : LoopSt := {st with hasResponse := false, code := 0} with hst'
      have hsrv' : env.server st'.reqIdx st'.url st'.file.length = .ok (resps t) := by
        rw [hst']; simp [hurl, hfile, hreq]; exact hsrv t
      have hreqp := requestPhase_ok cfg env st' (resps t) hsrv'
      have hstat := statusPhase_retry cfg env st'.reqIdx
        {st' with tries := st'.tries + 1, reqIdx := st'.reqIdx + 1,
                  hasResponse := true, code := (resps t).status} (resps t) st'.file.length
        (by rw [hst']; simp [hfile]; exact hret t)
      rw [hstat] at hreqp
      rw [hreqp] at hwait
      set stN : LoopSt :=
        {st with tries := st'.tries + 1, reqIdx := st'.reqIdx + 1, hasResponse := true,
                 code := (resps t).status, msg := statusMsg (resps t).status (resps t).reason st'.url}
        with hstN
      have hstep : attemptStep cfg env st =
          .next ((if st.hasResponse then [Ev.releaseConn] else []) ++
                  [Ev.warn (.retry st.msg st.tries), Ev.sleep (st.tries : ℚ)] ++
                 ([Ev.request st'.url (if st'.file.length ≠ 0 then some st'.file.length else none)] ++
                  chlEvs (resps t))) stN := by
        rw [hwait]; simp [ARes.pre]
      obtain ⟨stf, hloop, hdl⟩ := ih (t + 1) stN (by omega) (by omega) (by omega)
        (by simp [hstN, hst', htr]) (by simp [hstN]) (by simp [hstN, hurl])
        (by simp [hstN, hfile]) (by simp [hstN]) (by simp [hstN, hst', hurl])
        (by simp [hstN, hst', hreq])
      refine ⟨stf, ?_, by rw [hdl]⟩
      rw [loop_next cfg env fuel st stN _ hstep, hloop]
      rw [c1Tail_go u rng resps r t hgt]
      rw [hhr, hmsg, htr]
      simp [hst', hurl, hfile, ← hrng]
      rw [hrng]
      cases fb <;> simp

theorem c1Seg_free (u : String) (resps : Nat → Response) (n : Nat) :
    ∀ e ∈ c1Seg u resps n, isReqEv e = false := by
  intro e he
  rcases List.mem_append.mp he with h | h
  · exact chlEvs_free _ e h
  · simp only [List.mem_cons, List.not_mem_nil, or_false] at h
    rcases h with rfl | rfl | rfl <;> rfl

theorem backoffSleeps_c1Seg (u : String) (resps : Nat → Response) (n : Nat) :
    backoffSleeps (c1Seg u resps n) = [(n : ℚ)] := by
  unfold c1Seg
  rw [backoffSleeps_append, backoffSleeps_chl]
  simp [backoffSleeps]

theorem c1_segs (u : String) (rng : Option Nat) (resps : Nat → Response) (r : Nat) :
    ∀ k t, t + k = r + 1 → 1 ≤ t →
      reqSegs (chlEvs (resps (t - 1)) ++ c1Tail u rng resps r t) =
        (List.range' t k).map (c1Seg u resps) ++ [c1LastSeg u resps r] := by
  intro k
  induction k with
  | zero =>
    intro t ht h1
    have ht' : t = r + 1 := by omega
    subst ht'
    rw [c1Tail_last u rng resps r _ (by omega)]
    rw [reqSegs_free]
    · simp [c1LastSeg]
    · intro e he
      rcases List.mem_append.mp he with h | h
      · exact chlEvs_free _ e h
      · simp only [List.mem_cons, List.not_mem_nil, or_false] at h
        rcases h with rfl | rfl <;> rfl
  | succ k ih =>
    intro t ht h1
    have hgt : ¬t > r := by omega
    rw [c1Tail_go u rng resps r t hgt]
    have hre :
        chlEvs (resps (t - 1)) ++
          ([Ev.releaseConn,
            Ev.warn (.retry (statusMsg (resps (t - 1)).status (resps (t - 1)).reason u) t),
            Ev.sleep (t : ℚ), Ev.request u rng] ++
            chlEvs (resps t) ++ c1Tail u rng resps r (t + 1)) =
        c1Seg u resps t ++
          (Ev.request u rng :: (chlEvs (resps t) ++ c1Tail u rng resps r (t + 1))) := by
      simp [c1Seg]
    rw [hre, reqSegs_append_free _ _ (c1Seg_free u resps t)]
    have hreq : reqSegs (Ev.request u rng :: (chlEvs (resps t) ++ c1Tail u rng resps r (t + 1))) =
        [] :: reqSegs (chlEvs (resps t) ++ c1Tail u rng resps r (t + 1)) := by
      simp [reqSegs]
    rw [hreq]
    have ih' := ih (t + 1) (by omega) (by omega)
    simp only [Nat.add_sub_cancel] at ih'
    rw [List.headD_cons, List.tail_cons, ih']
    rw [List.range'_succ]
    simp

/-- C1 (amended): with retry limit `r` and a server answering every
request attempt with a retryable non-429 status (or 429 without a
configured 429 backoff), the loop performs exactly `r + 1` request
attempts and returns `Failed`; the first attempt is preceded by no backoff
sleep, and attempt `n + 1` (for `1 ≤ n ≤ r`) is preceded by a backoff
sleep of exactly `n` seconds.  (The original claim, without the 429
proviso, is refuted by `c1_claim_counterexample`.) -/
theorem c1_retry_budget (cfg : Cfg) (env : Env) (resps : Nat → Response) (r fuel : Nat)
    (hinf : cfg.retriesInf = false) (hr : cfg.retries = r)
    (hsrv : ∀ n, env.server n env.url env.startBytes.length = .ok (resps n))
    (hret : ∀ n, retryStatus cfg env.startBytes.length (resps n))
    (h429 : ∀ n, ¬((resps n).status = 429 ∧ cfg.interval429.isSome))
    (hfuel : r + 2 ≤ fuel) :
    ∃ res, download cfg env fuel = some res ∧
      res.outcome = .failed ∧
      reqCount res.trace = r + 1 ∧
      backoffSleeps ((reqSegs res.trace).getD 0 []) = [] ∧
      ∀ n, 1 ≤ n → n ≤ r → backoffSleeps ((reqSegs res.trace).getD n []) = [(n : ℚ)] := by
  rcases fuel with _ | fuel
  · omega
  set u := env.url with hu
  set fb := env.startBytes with hfb
  set rng : Option Nat := if fb.length ≠ 0 then some fb.length else none with hrng
  -- first attempt
  set st0 := initSt cfg env with hst0
  have hsrv0 : env.server st0.reqIdx st0.url st0.file.length = .ok (resps 0) := by
    simp [hst0, initSt]
    exact hsrv 0
  have hstep0 : attemptStep cfg env st0 =
      .next ([Ev.request u rng] ++ chlEvs (resps 0))
        {st0 with tries := 1, reqIdx := 1, hasResponse := true, code := (resps 0).status,
                  msg := statusMsg (resps 0).status (resps 0).reason u} := by
    rw [attemptStep_tries0 cfg env st0 (by simp [hst0, initSt])]
    rw [requestPhase_ok cfg env st0 (resps 0) hsrv0]
    rw [statusPhase_retry cfg env st0.reqIdx _ (resps 0) st0.file.length
      (by simp [hst0, initSt]; exact hret 0)]
    simp [ARes.pre, hst0, initSt, hrng]
  obtain ⟨stf, hloop, hdl⟩ := c1_loop cfg env resps u rng fb r hinf hr hsrv hret h429 hrng
    fuel 1
    {st0 with tries := 1, reqIdx := 1, hasResponse := true, code := (resps 0).status,
              msg := statusMsg (resps 0).status (resps 0).reason u}
    (by omega) (by omega) (by omega) rfl rfl (by simp [hst0, initSt]) (by simp [hst0, initSt, hfb])
    rfl rfl rfl
  have himpl : loop cfg env (fuel + 1) st0 =
      some ⟨.failed, [Ev.request u rng] ++ chlEvs (resps 0) ++ c1Tail u rng resps r 1, stf,
            none⟩ := by
    rw [loop_next cfg env fuel _ _ _ hstep0, hloop]
    simp
  have hdl0 : stf.downloading = false := by rw [hdl]; simp [hst0, initSt]
  set pre : List Ev := if cfg.part && !cfg.metadata then [Ev.partEnable] else [] with hpre
  have hdli : downloadImpl cfg env (fuel + 1) =
      some ⟨.failed, pre ++ ([Ev.request u rng] ++ chlEvs (resps 0) ++ c1Tail u rng resps r 1),
            stf, none⟩ := by
    unfold downloadImpl
    rw [← hst0, himpl, ← hpre]
    rfl
  have hdn : download cfg env (fuel + 1) =
      some ⟨.failed, pre ++ ([Ev.request u rng] ++ chlEvs (resps 0) ++ c1Tail u rng resps r 1),
            stf, none⟩ := by
    unfold download
    rw [hdli]
    simp [hdl0]
  set TR : List Ev :=
    pre ++ ([Ev.request u rng] ++ chlEvs (resps 0) ++ c1Tail u rng resps r 1) with hTR
  have hprefree : ∀ e ∈ pre, isReqEv e = false := by
    rw [hpre]
    split <;> simp [isReqEv]
  have hsegs : reqSegs TR =
      pre :: ((List.range' 1 r).map (c1Seg u resps) ++ [c1LastSeg u resps r]) := by
    have hsplit : TR = pre ++ (Ev.request u rng :: (chlEvs (resps 0) ++ c1Tail u rng resps r 1)) := by
      rw [hTR]
      simp
    rw [hsplit, reqSegs_append_free _ _ hprefree]
    have hcons : reqSegs (Ev.request u rng :: (chlEvs (resps 0) ++ c1Tail u rng resps r 1)) =
        [] :: reqSegs (chlEvs (resps 0) ++ c1Tail u rng resps r 1) := by
      simp [reqSegs]
    rw [hcons]
    have hs := c1_segs u rng resps r r 1 (by omega) (by omega)
    simp only [Nat.sub_self] at hs
    rw [List.headD_cons, List.tail_cons, hs]
    simp
  have hCount : reqCount TR = r + 1 := by
    have hlen := length_reqSegs TR
    rw [hsegs] at hlen
    simp at hlen
    omega
  have hSeg0 : backoffSleeps ((reqSegs TR).getD 0 []) = [] := by
    rw [hsegs]
    simp only [List.getD_cons_zero]
    rw [hpre]
    split <;> simp [backoffSleeps]
  have hSegn : ∀ n, 1 ≤ n → n ≤ r →
      backoffSleeps ((reqSegs TR).getD n []) = [(n : ℚ)] := by
    intro n hn1 hnr
    rw [hsegs]
    rcases n with _ | m
    · omega
    · simp only [List.getD_cons_succ]
      have hm : m < ((List.range' 1 r).map (c1Seg u resps)).length := by
        simp
        omega
      rw [List.getD_append _ _ _ _ hm]
      have hget : ((List.range' 1 r).map (c1Seg u resps)).getD m [] = c1Seg u resps (1 + m) := by
        rw [List.getD_eq_getElem _ _ hm]
        simp [List.getElem_range'_1]
      rw [hget]
      have h1m : 1 + m = m + 1 := by omega
      rw [h1m]
      exact backoffSleeps_c1Seg u resps (m + 1)
  exact ⟨_, hdn, rfl, hCount, hSeg0, hSegn⟩

/-- Witness for `c1_retry_budget`: retries 2 against an always-503 server
gives three attempts, no sleep before the first, sleeps 1 and 2 before the
second and third, and `Failed`. -/
theorem c1_retry_budget_witness :
    ∃ res, download { retries := 2 } env503 4 = some res ∧
      res.outcome = .failed ∧
      reqCount res.trace = 2 + 1 ∧
      backoffSleeps ((reqSegs res.trace).getD 0 []) = [] ∧
      ∀ n, 1 ≤ n → n ≤ 2 → backoffSleeps ((reqSegs res.trace).getD n []) = [(n : ℚ)] :=
  c1_retry_budget { retries := 2 } env503 (fun _ => respSU) 2 4 rfl rfl
    (fun _ => rfl) (fun _ => by constructor <;> simp [respSU, Cfg.expectedStatus])
    (fun _ => by simp [respSU]) (by omega)

/-- Counterexample to C1 as stated: a task whose server always answers the
retryable status 429 and which has a 10-second 429 backoff configured
still makes `r + 1 = 2` attempts and fails, but the sleep before attempt 2
is 10 seconds, not the 1 second of linear backoff the claim requires. -/
theorem c1_claim_counterexample :
    ∃ res, download cfg429 env429 4 = some res ∧
      res.outcome = .failed ∧
      reqCount res.trace = 2 ∧
      backoffSleeps ((reqSegs res.trace).getD 1 []) = [(10 : ℚ)] ∧
      backoffSleeps ((reqSegs res.trace).getD 1 []) ≠ [((1 : Nat) : ℚ)] := by
  refine ⟨_, rfl, ?_, ?_, ?_, ?_⟩ <;> decide

/-! ### The rate-aware receiver (claim C8) -/

theorem recvGo_filter_progress (env : Env) (cfg : Cfg) (i : Nat) (size : Option Nat)
    (bytesStart : Nat) :
    ∀ items j bd file, allData items = true →
      ((recvGo env cfg i none none size bytesStart items j bd file).1).filter isProgressEv =
        progressSched env cfg i size bytesStart items j bd := by
  intro items
  induction items with
  | nil => intro j bd file _; simp [recvGo, progressSched]
  | cons it rest ih =>
    intro j bd file hAll
    cases it with
    | err m => simp [allData] at hAll
    | data bs =>
      have hAll' : allData rest = true := by
        simp [allData] at hAll ⊢
        exact hAll
      simp only [recvGo, progressSched, dataBytes]
      rw [if_neg (by simp), if_neg (by simp)]
      rcases hp : cfg.progress with _ | p <;> rcases hr : cfg.rate with _ | rt <;>
          simp only [hp, hr] <;> (try split) <;> (try split) <;>
        simp [isProgressEv, ih _ _ _ hAll']

/-- C8 (amended): in the rate-aware receiver — selected exactly when a
progress interval or a rate cap is configured — a progress update is
emitted after a chunk exactly when a progress interval is configured and
the elapsed time since the START OF THE STREAM (not since the last
report) exceeds that interval; once the interval has first elapsed, every
subsequent chunk reports.  Each update carries the triple (declared total
bytes, resumed offset plus bytes downloaded this stream, rate =
floor(bytes downloaded this stream / elapsed)), the rate excluding the
resumed offset.  `progressSched` is that schedule written out from the
amended specification.  (The original "since the last report" condition
is refuted by `c8_claim_counterexample`.) -/
theorem c8_progress_reports (env : Env) (cfg : Cfg) (i : Nat) (size : Option Nat)
    (bytesStart : Nat) (items : List StreamItem) (file : Bytes)
    (hAll : allData items = true) :
    ((recvGo env cfg i none none size bytesStart items 0 0 file).1).filter isProgressEv =
      progressSched env cfg i size bytesStart items 0 0 ∧
    (cfg.progress = none →
      ((recvGo env cfg i none none size bytesStart items 0 0 file).1).filter
        isProgressEv = []) := by
  have h := recvGo_filter_progress env cfg i size bytesStart items 0 0 file hAll
  refine ⟨h, fun hp => ?_⟩
  rw [h]
  have hnone : ∀ its j bd, progressSched env cfg i size bytesStart its j bd = [] := by
    intro its
    induction its with
    | nil => intro j bd; simp [progressSched]
    | cons it rest ih => intro j bd; simp [progressSched, hp, ih]
  exact hnone items 0 0

/-- Witness for `c8_progress_reports` at a concrete stream: interval 3,
chunk clock 4 then 5 seconds, both chunks past the interval. -/
theorem c8_progress_reports_witness :
    ((recvGo { url := "u", server := fun _ _ _ => .connError "x",
               elapsed := fun _ j => if j = 0 then 4 else 5 }
        { retries := 0, progress := some 3 } 0 none none (some 100) 10
        [.data [9], .data [8]] 0 0 []).1).filter isProgressEv =
      progressSched { url := "u", server := fun _ _ _ => .connError "x",
                      elapsed := fun _ j => if j = 0 then 4 else 5 }
        { retries := 0, progress := some 3 } 0 (some 100) 10 [.data [9], .data [8]] 0 0 ∧
    (({ retries := 0, progress := some 3 } : Cfg).progress = none →
      ((recvGo { url := "u", server := fun _ _ _ => .connError "x",
                 elapsed := fun _ j => if j = 0 then 4 else 5 }
          { retries := 0, progress := some 3 } 0 none none (some 100) 10
          [.data [9], .data [8]] 0 0 []).1).filter isProgressEv = []) :=
  c8_progress_reports _ _ 0 (some 100) 10 [.data [9], .data [8]] [] (by decide)

/-- Counterexample to C8 as stated: with interval 3 and chunks arriving at
elapsed times 4 and 5 seconds, the receiver emits a progress update after
BOTH chunks (the second only 1 second after the first report), whereas the
claimed "elapsed time since the last report exceeds the interval"
schedule would emit exactly one. -/
theorem c8_claim_counterexample :
    ((recvGo { url := "u", server := fun _ _ _ => .connError "x",
               elapsed := fun _ j => if j = 0 then 4 else 5 }
        { retries := 0, progress := some 3 } 0 none none (some 100) 10
        [.data [9], .data [8]] 0 0 []).1).countP isProgressEv = 2 ∧
    (lastReportFlags 3 0 [4, 5]).count true = 1 ∧
    ¬((5 : ℚ) - 4 > 3) := by
  refine ⟨by decide, ?_, by norm_num⟩
  have h1 : ((4 : ℚ) - 0 > 3) := by norm_num
  have h2 : ¬((5 : ℚ) - 4 > 3) := by norm_num
  rw [lastReportFlags, if_pos h1, lastReportFlags, if_neg h2, lastReportFlags]
  rfl

/-! ### More step-computation lemmas -/

theorem ARes.pre_nil (r : ARes) : r.pre [] = r := by
  cases r <;> simp [ARes.pre]

theorem statusPhase_ok (cfg : Cfg) (env : Env) (i : Nat) (st : LoopSt) (resp : Response)
    (fs : Nat) (h : resp.status = 200 ∨ resp.status ∈ cfg.expectedStatus) :
    statusPhase cfg env i st resp fs =
      validatePhase cfg env i st resp 0 resp.contentLength fs := by
  simp [statusPhase, h]

theorem statusPhase_416 (cfg : Cfg) (env : Env) (i : Nat) (st : LoopSt) (resp : Response)
    (fs : Nat) (h1 : ¬(resp.status = 200 ∨ resp.status ∈ cfg.expectedStatus))
    (h2 : resp.status ≠ 206) (h3 : resp.status = 416) (h4 : fs ≠ 0) :
    statusPhase cfg env i st resp fs = postLoop cfg st resp [] := by
  have h1a : ¬resp.status = 200 := fun hc => h1 (Or.inl hc)
  have h1b : resp.status ∉ cfg.expectedStatus := fun hc => h1 (Or.inr hc)
  have h1b' : (416 : Nat) ∉ cfg.expectedStatus := by rw [← h3]; exact h1b
  simp [statusPhase, h1a, h1b, h1b', h2, h3, h4]

theorem statusPhase_fail (cfg : Cfg) (env : Env) (i : Nat) (st : LoopSt) (resp : Response)
    (fs : Nat) (h1 : ¬(resp.status = 200 ∨ resp.status ∈ cfg.expectedStatus))
    (h2 : resp.status ≠ 206) (h3 : ¬(resp.status = 416 ∧ fs ≠ 0))
    (h4 : ¬(resp.status ∈ cfg.retryCodes ∨ (500 ≤ resp.status ∧ resp.status < 600)))
    (h5 : (match cfg.httpRetry with | some f => f resp | none => false) = false) :
    statusPhase cfg env i st resp fs =
      .done (chlEvs resp ++
              [Ev.releaseConn, Ev.warn (.status (statusMsg resp.status resp.reason st.url))])
        .failed
        {st with hasResponse := false,
                 msg := statusMsg resp.status resp.reason st.url} none := by
  simp [statusPhase, h1, h2, h3, h4, h5]

theorem validatePhase_none (cfg : Cfg) (env : Env) (i : Nat) (st : LoopSt) (resp : Response)
    (offset : Nat) (sizeRaw : Option String) (fs : Nat)
    (hv : cfg.httpValidate = none)
    (hh : (cfg.validateHtml && (resp.contentType.getD "").startsWith "text/html"
            && !(st.ext = "html" || st.ext = "htm")) = false) :
    validatePhase cfg env i st resp offset sizeRaw fs =
      sizePhase cfg env i st resp offset sizeRaw fs := by
  simp only [validatePhase, hv, Option.map_none]
  split
  · simp_all
  · simp_all
  · simp_all
  · rw [if_neg (by simp_all)]

theorem validatePhase_accept (cfg : Cfg) (env : Env) (i : Nat) (st : LoopSt) (resp : Response)
    (offset : Nat) (sizeRaw : Option String) (fs : Nat) (f : Response → ValidateResult)
    (hval : cfg.validate = true) (hv : cfg.httpValidate = some f) (hf : f resp = .accept)
    (hh : (cfg.validateHtml && (resp.contentType.getD "").startsWith "text/html"
            && !(st.ext = "html" || st.ext = "htm")) = false) :
    validatePhase cfg env i st resp offset sizeRaw fs =
      sizePhase cfg env i st resp offset sizeRaw fs := by
  simp [validatePhase, hval, hv, hf, hh]
  intro ha hb hc hd
  rw [ha, hb] at hh
  simp [hc, hd] at hh

theorem validatePhase_newUrl (cfg : Cfg) (env : Env) (i : Nat) (st : LoopSt) (resp : Response)
    (offset : Nat) (sizeRaw : Option String) (fs : Nat) (f : Response → ValidateResult)
    (u2 : String)
    (hval : cfg.validate = true) (hv : cfg.httpValidate = some f) (hf : f resp = .newUrl u2) :
    validatePhase cfg env i st resp offset sizeRaw fs =
      .next [] {st with url := u2, tries := st.tries - 1} := by
  simp [validatePhase, hval, hv, hf]

theorem validatePhase_reject (cfg : Cfg) (env : Env) (i : Nat) (st : LoopSt) (resp : Response)
    (offset : Nat) (sizeRaw : Option String) (fs : Nat) (f : Response → ValidateResult)
    (hval : cfg.validate = true) (hv : cfg.httpValidate = some f) (hf : f resp = .reject) :
    validatePhase cfg env i st resp offset sizeRaw fs =
      .done [Ev.releaseConn, Ev.warn .invalidResponse] .failed
        {st with hasResponse := false} none := by
  simp [validatePhase, hval, hv, hf]

theorem sizePhase_skip_min (cfg : Cfg) (env : Env) (i : Nat) (st : LoopSt) (resp : Response)
    (offset : Nat) (sizeRaw : Option String) (fs : Nat) (s : Nat)
    (hs : parseSize sizeRaw = some s) (hmin : cfg.minsize ≠ 0) (hlt : s < cfg.minsize) :
    sizePhase cfg env i st resp offset sizeRaw fs =
      .done [Ev.releaseConn, Ev.warn (.sizeMin s cfg.minsize)] .skipped
        {st with tempCleared := true, hasResponse := false} none := by
  simp [sizePhase, hs, hmin, hlt]

theorem sizePhase_skip_max (cfg : Cfg) (env : Env) (i : Nat) (st : LoopSt) (resp : Response)
    (offset : Nat) (sizeRaw : Option String) (fs : Nat) (s : Nat)
    (hs : parseSize sizeRaw = some s) (hmin : ¬(cfg.minsize ≠ 0 ∧ s < cfg.minsize))
    (hmax : cfg.maxsize ≠ 0) (hgt : s > cfg.maxsize) :
    sizePhase cfg env i st resp offset sizeRaw fs =
      .done [Ev.releaseConn, Ev.warn (.sizeMax s cfg.maxsize)] .skipped
        {st with tempCleared := true, hasResponse := false} none := by
  simp [sizePhase, hs, hmin, hmax, hgt]

theorem sizePhase_pass (cfg : Cfg) (env : Env) (i : Nat) (st : LoopSt) (resp : Response)
    (offset : Nat) (sizeRaw : Option String) (fs : Nat)
    (hok : ∀ s, parseSize sizeRaw = some s →
      ¬(cfg.minsize ≠ 0 ∧ s < cfg.minsize) ∧ ¬(cfg.maxsize ≠ 0 ∧ s > cfg.maxsize)) :
    sizePhase cfg env i st resp offset sizeRaw fs =
      pathPhase cfg env i st resp offset (parseSize sizeRaw) fs := by
  rcases hs : parseSize sizeRaw with _ | s
  · simp [sizePhase, hs]
  · obtain ⟨h1, h2⟩ := hok s hs
    simp [sizePhase, hs, h1, h2]

theorem pathPhase_plain (cfg : Cfg) (env : Env) (i : Nat) (st : LoopSt) (resp : Response)
    (offset : Nat) (size : Option Nat) (fs : Nat)
    (hext : st.ext ≠ "") (hmp : st.metadataPending = false) :
    pathPhase cfg env i st resp offset size fs =
      streamSetupPhase cfg env i st resp offset size fs := by
  simp [pathPhase, hext, hmp, ARes.pre_nil]

theorem streamSetup_noProbe (cfg : Cfg) (env : Env) (i : Nat) (st : LoopSt) (resp : Response)
    (offset : Nat) (size : Option Nat) (fs : Nat)
    (h : ¬(offset = 0 ∧
      ((cfg.adjustExtension && (SIGNATURE_CHECKS.lookup st.ext).isSome
        || cfg.httpSignature.isSome) = true))) :
    streamSetupPhase cfg env i st resp offset size fs =
      openPhase cfg env i st resp offset size fs none resp.body := by
  simp only [streamSetupPhase]
  rw [if_neg h]

theorem recvGo_allData (env : Env) (cfg : Cfg) (i : Nat) (size : Option Nat)
    (bytesStart : Nat) :
    ∀ items j bd file, allData items = true →
      (recvGo env cfg i none none size bytesStart items j bd file).2 =
        (file ++ concatData items, .fin) := by
  intro items
  induction items with
  | nil => intro j bd file _; simp [recvGo, concatData]
  | cons it rest ih =>
    intro j bd file hAll
    cases it with
    | err m => simp [allData] at hAll
    | data bs =>
      have hAll' : allData rest = true := by
        simp [allData] at hAll ⊢
        exact hAll
      have hih := ih (j + 1) (bd + bs.length) (file ++ bs) hAll'
      simp only [recvGo]
      rw [if_neg (by simp), if_neg (by simp)]
      have h1 : (recvGo env cfg i none none size bytesStart rest (j + 1) (bd + bs.length)
          (file ++ bs)).2.1 = (file ++ bs) ++ concatData rest := by rw [hih]
      have h2 : (recvGo env cfg i none none size bytesStart rest (j + 1) (bd + bs.length)
          (file ++ bs)).2.2 = RecvRes.fin := by rw [hih]
      simp [h1, h2, concatData, dataBytes]

theorem openPhase_fresh (cfg : Cfg) (env : Env) (i : Nat) (st : LoopSt) (resp : Response)
    (size : Option Nat) (fs : Nat) (items : List StreamItem)
    (hopen : env.openNone i = false)
    (hall : allData items = true) (hstop : resp.stopAfter = none)
    (hctl : resp.controlAfter = none)
    (hsz : ∀ s, size = some s → s = 0 ∨ ¬(concatData items).length < s) :
    openPhase cfg env i st resp 0 size fs none items =
      postLoop cfg {st with downloading := true, file := concatData items} resp
        ((if fs ≠ 0 then [Ev.debug "Unable to resume partial download"] else []) ++
         [Ev.openFile true] ++
         (recvGo env cfg i none none size 0 items 0 0 []).1) := by
  have hrec := recvGo_allData env cfg i size 0 items 0 0 [] hall
  have h21 : (recvGo env cfg i none none size 0 items 0 0 []).2.1 = concatData items := by
    rw [hrec]
    simp
  have h22 : (recvGo env cfg i none none size 0 items 0 0 []).2.2 = RecvRes.fin := by
    rw [hrec]
  simp only [openPhase, hstop, hctl]
  rw [if_neg (by simp [hopen])]
  simp only [Option.getD, ne_eq, not_true_eq_false, if_false, ite_self]
  rcases size with _ | s
  · simp [h21, h22]
  · rcases hsz s rfl with h0 | hlt
    · subst h0
      simp [h21, h22]
    · simp [h21, h22, hlt]

/-- C3: a 416 response terminates the attempt loop as
already-fully-downloaded Success — without opening, writing or streaming
anything (the attempt's whole trace is the single request event, which
carried the `Range: bytes=k-` header) — if and only if a non-empty
partial file of size `k > 0` already exists; with no partial file a 416
takes the ordinary classification path: retried when 416 is a configured
retry code, otherwise release + warning + Failed. -/
theorem c3_416_already_complete (cfg : Cfg) (env : Env) (st : LoopSt) (resp : Response)
    (hsrv : env.server st.reqIdx st.url st.file.length = .ok resp)
    (h416 : resp.status = 416)
    (hexp : ¬(resp.status = 200 ∨ resp.status ∈ cfg.expectedStatus)) :
    (st.file.length ≠ 0 →
      ∃ mt, requestPhase cfg env st =
        .done [Ev.request st.url (some st.file.length)] .success
          {st with tries := st.tries + 1, reqIdx := st.reqIdx + 1, hasResponse := true,
                   code := resp.status, downloading := false} (some mt)) ∧
    (st.file.length = 0 → (416 : Nat) ∉ cfg.retryCodes → cfg.httpRetry = none →
      requestPhase cfg env st =
        .done ([Ev.request st.url none] ++ chlEvs resp ++
                [Ev.releaseConn, Ev.warn (.status (statusMsg resp.status resp.reason st.url))])
          .failed
          {st with tries := st.tries + 1, reqIdx := st.reqIdx + 1, hasResponse := false,
                   code := resp.status, msg := statusMsg resp.status resp.reason st.url}
          none) ∧
    (st.file.length = 0 → (416 : Nat) ∈ cfg.retryCodes →
      requestPhase cfg env st =
        .next ([Ev.request st.url none] ++ chlEvs resp)
          {st with tries := st.tries + 1, reqIdx := st.reqIdx + 1, hasResponse := true,
                   code := resp.status, msg := statusMsg resp.status resp.reason st.url}) := by
  have h206 : resp.status ≠ 206 := by rw [h416]; decide
  refine ⟨fun hk => ?_, fun hk hrc hhr => ?_, fun hk hrc => ?_⟩
  · rw [requestPhase_ok cfg env st resp hsrv]
    rw [statusPhase_416 cfg env st.reqIdx _ resp st.file.length hexp h206 h416 hk]
    refine ⟨if cfg.mtime then
      (match cfg.lastModified with
       | some lm => some lm
       | none => resp.lastModified) else none, ?_⟩
    simp [postLoop, ARes.pre, hk]
  · rw [requestPhase_ok cfg env st resp hsrv]
    rw [statusPhase_fail cfg env st.reqIdx _ resp st.file.length hexp h206
      (by simp [hk])
      (by rw [h416]
          rintro (h | ⟨h5, _⟩)
          · exact hrc h
          · omega)
      (by rw [hhr])]
    simp [ARes.pre, hk]
  · rw [requestPhase_ok cfg env st resp hsrv]
    rw [statusPhase_retry cfg env st.reqIdx _ resp st.file.length
      ⟨hexp, h206, by simp [hk], Or.inl (by rw [h416]; exact hrc)⟩]
    simp [ARes.pre, hk]

/-- Witness for `c3_416_already_complete`: a 416 over a 1-byte partial. -/
theorem c3_416_already_complete_witness :
    ∃ mt, requestPhase cfgPlain0 env416 (mkSt "http://x/f.jpg" "jpg" [1]) =
      .done [Ev.request "http://x/f.jpg" (some 1)] .success
        { url := "http://x/f.jpg", ext := "jpg", file := [1], tries := 1, code := 416,
          msg := "", reqIdx := 1, metadataPending := false, tempCleared := false,
          downloading := false, hasResponse := true } (some mt) := by
  have h := (c3_416_already_complete cfgPlain0 env416 (mkSt "http://x/f.jpg" "jpg" [1])
    resp416 rfl rfl (by decide)).1 (by decide)
  simpa [resp416] using h

/-- C10: when a non-empty partial file of length `k > 0` exists (so
`Range: bytes=k-` was sent) but the server answers 200 (or an expected
status), the resume offset is reset to 0 and the destination is opened in
truncating `w+b` mode: the `k` persisted bytes are discarded and the body
is written from scratch — the final file content is exactly the response
body, independent of the previous bytes.  (Scenario hypotheses: no
validator, no html/size/extension interference, a clean stream.) -/
theorem c10_truncate_on_200 (cfg : Cfg) (env : Env) (st : LoopSt) (resp : Response)
    (hk : st.file.length ≠ 0)
    (hsrv : env.server st.reqIdx st.url st.file.length = .ok resp)
    (hst : resp.status = 200 ∨ resp.status ∈ cfg.expectedStatus)
    (hv : cfg.httpValidate = none)
    (hh : (cfg.validateHtml && (resp.contentType.getD "").startsWith "text/html"
            && !(st.ext = "html" || st.ext = "htm")) = false)
    (hcl : resp.contentLength = none)
    (hext : st.ext ≠ "") (hmp : st.metadataPending = false)
    (hadj : cfg.adjustExtension = false) (hsig : cfg.httpSignature = none)
    (hopen : env.openNone st.reqIdx = false)
    (hall : allData resp.body = true)
    (hstop : resp.stopAfter = none) (hctl : resp.controlAfter = none) :
    ∃ mt, requestPhase cfg env st =
      .done ([Ev.request st.url (some st.file.length),
              Ev.debug "Unable to resume partial download", Ev.openFile true] ++
             (recvGo env cfg st.reqIdx none none none 0 resp.body 0 0 []).1)
        .success
        {st with tries := st.tries + 1, reqIdx := st.reqIdx + 1, hasResponse := true,
                 code := resp.status, downloading := false, file := concatData resp.body}
        (some mt) := by
  set stU : LoopSt :=
    {st with tries := st.tries + 1, reqIdx := st.reqIdx + 1, hasResponse := true,
             code := resp.status} with hstU
  have hh' : (cfg.validateHtml && (resp.contentType.getD "").startsWith "text/html"
      && !(stU.ext = "html" || stU.ext = "htm")) = false := hh
  have hext' : stU.ext ≠ "" := hext
  have hmp' : stU.metadataPending = false := hmp
  rw [requestPhase_ok cfg env st resp hsrv]
  rw [← hstU]
  rw [statusPhase_ok cfg env st.reqIdx stU resp st.file.length hst]
  rw [validatePhase_none cfg env st.reqIdx stU resp 0 resp.contentLength st.file.length hv hh']
  rw [sizePhase_pass cfg env st.reqIdx stU resp 0 resp.contentLength st.file.length
    (fun s hs => by rw [hcl] at hs; exact absurd hs (by simp [parseSize]))]
  have hpn : parseSize resp.contentLength = none := by rw [hcl]; rfl
  rw [hpn]
  rw [pathPhase_plain cfg env st.reqIdx stU resp 0 none st.file.length hext' hmp']
  rw [streamSetup_noProbe cfg env st.reqIdx stU resp 0 none st.file.length
    (by simp [hadj, hsig])]
  rw [openPhase_fresh cfg env st.reqIdx stU resp none st.file.length resp.body hopen hall
    hstop hctl (fun s hs => by simp at hs)]
  refine ⟨if cfg.mtime then
    (match cfg.lastModified with
     | some lm => some lm
     | none => resp.lastModified) else none, ?_⟩
  simp [postLoop, ARes.pre, hk, hstU]

/-- Witness for `c10_truncate_on_200`: a 3-byte partial discarded in
favour of a fresh 2-byte body. -/
theorem c10_truncate_on_200_witness :
    ∃ mt, requestPhase cfgPlain0 envFresh (mkSt "http://x/f.jpg" "jpg" [1, 2, 3]) =
      .done ([Ev.request "http://x/f.jpg" (some 3),
              Ev.debug "Unable to resume partial download", Ev.openFile true] ++
             (recvGo envFresh cfgPlain0 0 none none none 0 respFresh.body 0 0 []).1)
        .success
        { url := "http://x/f.jpg", ext := "jpg", file := concatData respFresh.body,
          tries := 1, code := 200, msg := "", reqIdx := 1, metadataPending := false,
          tempCleared := false, downloading := false, hasResponse := true }
        (some mt) := by
  have h := c10_truncate_on_200 cfgPlain0 envFresh (mkSt "http://x/f.jpg" "jpg" [1, 2, 3])
    respFresh (by decide) rfl (Or.inl rfl) rfl (by decide) rfl (by decide) rfl rfl rfl rfl
    (by decide) rfl rfl
  simpa [respFresh] using h

/-- C4 (amended): when the configured response validator returns a URL
string, that string replaces the request URL and the try counter is
decremented, so the substitution does not count against the retry budget
(the net try count is unchanged and the substituting attempt itself emits
no sleep or warning); returning `False` releases the connection and
returns `Failed`; returning `True` accepts the response (the attempt
proceeds exactly into the size check, as with no validator).  However,
the next request after a substitution is issued without a backoff sleep
only when the decremented counter is 0 (substitution on the first
attempt); when an earlier attempt had failed, the loop's retry-wait —
release, warning, and a sleep of the decremented count — still precedes
the re-issued request (refuted claim: see `c4_claim_counterexample`). -/
theorem c4_validator_results (cfg : Cfg) (env : Env) (st : LoopSt) (resp : Response)
    (f : Response → ValidateResult)
    (hsrv : env.server st.reqIdx st.url st.file.length = .ok resp)
    (hst : resp.status = 200 ∨ resp.status ∈ cfg.expectedStatus)
    (hval : cfg.validate = true) (hv : cfg.httpValidate = some f) :
    (∀ u2, f resp = .newUrl u2 →
      requestPhase cfg env st =
        .next [Ev.request st.url (if st.file.length ≠ 0 then some st.file.length else none)]
          {st with tries := st.tries, reqIdx := st.reqIdx + 1, hasResponse := true,
                   code := resp.status, url := u2}) ∧
    (f resp = .reject →
      requestPhase cfg env st =
        .done [Ev.request st.url (if st.file.length ≠ 0 then some st.file.length else none),
               Ev.releaseConn, Ev.warn .invalidResponse]
          .failed
          {st with tries := st.tries + 1, reqIdx := st.reqIdx + 1, hasResponse := false,
                   code := resp.status} none) ∧
    ((cfg.validateHtml && (resp.contentType.getD "").startsWith "text/html"
        && !(st.ext = "html" || st.ext = "htm")) = false → f resp = .accept →
      requestPhase cfg env st =
        (sizePhase cfg env st.reqIdx
          {st with tries := st.tries + 1, reqIdx := st.reqIdx + 1, hasResponse := true,
                   code := resp.status} resp 0 resp.contentLength st.file.length).pre
          [Ev.request st.url (if st.file.length ≠ 0 then some st.file.length else none)]) ∧
    (∀ st' : LoopSt, st'.tries = 0 → attemptStep cfg env st' = requestPhase cfg env st') ∧
    (∀ st' : LoopSt, st'.tries ≠ 0 → cfg.retriesInf = false → ¬st'.tries > cfg.retries →
      ¬(st'.code = 429 ∧ cfg.interval429.isSome) →
      attemptStep cfg env st' =
        (requestPhase cfg env {st' with hasResponse := false, code := 0}).pre
          ((if st'.hasResponse then [Ev.releaseConn] else []) ++
            [Ev.warn (.retry st'.msg st'.tries), Ev.sleep (st'.tries : ℚ)])) := by
  refine ⟨fun u2 hf => ?_, fun hf => ?_, fun hh hf => ?_,
    fun st' h0 => attemptStep_tries0 cfg env st' h0,
    fun st' h0 hinf hb h4 => attemptStep_wait cfg env st' h0 hinf hb h4⟩
  · rw [requestPhase_ok cfg env st resp hsrv]
    rw [statusPhase_ok cfg env st.reqIdx _ resp st.file.length hst]
    rw [validatePhase_newUrl cfg env st.reqIdx _ resp 0 resp.contentLength st.file.length
      f u2 hval hv hf]
    simp [ARes.pre]
  · rw [requestPhase_ok cfg env st resp hsrv]
    rw [statusPhase_ok cfg env st.reqIdx _ resp st.file.length hst]
    rw [validatePhase_reject cfg env st.reqIdx _ resp 0 resp.contentLength st.file.length
      f hval hv hf]
    simp [ARes.pre]
  · set stU : LoopSt :=
      {st with tries := st.tries + 1, reqIdx := st.reqIdx + 1, hasResponse := true,
               code := resp.status} with hstU
    have hh' : (cfg.validateHtml && (resp.contentType.getD "").startsWith "text/html"
        && !(stU.ext = "html" || stU.ext = "htm")) = false := hh
    rw [requestPhase_ok cfg env st resp hsrv]
    rw [← hstU]
    rw [statusPhase_ok cfg env st.reqIdx stU resp st.file.length hst]
    rw [validatePhase_accept cfg env st.reqIdx stU resp 0 resp.contentLength st.file.length
      f hval hv hf hh']

/-- Witness for `c4_validator_results`: the substituting validator on a
fresh first attempt replaces the URL "A" by "B" and leaves the try
counter at 0, with no sleep or warning emitted. -/
theorem c4_validator_results_witness :
    requestPhase cfgSub envSubA (mkSt "A" "jpg" []) =
      .next [Ev.request "A" none]
        { url := "B", ext := "jpg", file := [], tries := 0, code := 200, msg := "",
          reqIdx := 1, metadataPending := false, tempCleared := false, downloading := false,
          hasResponse := true } := by
  have h := (c4_validator_results cfgSub envSubA (mkSt "A" "jpg" []) respA subValidator
    rfl (Or.inl rfl) rfl rfl).1 "B" rfl
  simpa [respA] using h

/-- Counterexample to C4 as stated: attempt 1 fails with a 503, attempt 2
reaches the validator which substitutes URL "B"; the third request — the
one issued for the substituted URL — IS preceded by a backoff sleep of 1
second (and a warning), contradicting "the next request attempt is issued
without any backoff sleep". -/
theorem c4_claim_counterexample :
    ∃ res, download cfgSub envSub 10 = some res ∧
      res.outcome = .success ∧
      reqCount res.trace = 3 ∧
      res.st.url = "B" ∧
      backoffSleeps ((reqSegs res.trace).getD 2 []) = [(1 : ℚ)] ∧
      [(1 : ℚ)] ≠ [] := by
  refine ⟨_, rfl, ?_, ?_, ?_, ?_, ?_⟩ <;> decide

/-! ### The size filter (claim C2) -/

theorem isSkippedRes_pre (r : ARes) (tr : List Ev) :
    isSkippedRes (r.pre tr) = isSkippedRes r := by
  cases r with
  | next t s => rfl
  | done t o s m => cases o <;> rfl

theorem openPhase_not_skipped (cfg : Cfg) (env : Env) (i : Nat) (st : LoopSt)
    (resp : Response) (offset : Nat) (size : Option Nat) (fs : Nat)
    (hdr : Option Bytes) (items : List StreamItem) :
    isSkippedRes (openPhase cfg env i st resp offset size fs hdr items) = false := by
  unfold openPhase postLoop
  dsimp only
  repeat' split
  all_goals rfl

theorem streamSetup_not_skipped (cfg : Cfg) (env : Env) (i : Nat) (st : LoopSt)
    (resp : Response) (offset : Nat) (size : Option Nat) (fs : Nat) :
    isSkippedRes (streamSetupPhase cfg env i st resp offset size fs) = false := by
  unfold streamSetupPhase
  dsimp only
  repeat' split
  all_goals first
    | rfl
    | (rw [isSkippedRes_pre]; exact openPhase_not_skipped ..)
    | exact openPhase_not_skipped ..

theorem pathPhase_not_skipped (cfg : Cfg) (env : Env) (i : Nat) (st : LoopSt)
    (resp : Response) (offset : Nat) (size : Option Nat) (fs : Nat) :
    isSkippedRes (pathPhase cfg env i st resp offset size fs) = false := by
  unfold pathPhase
  dsimp only
  repeat' split
  all_goals first
    | rfl
    | (rw [isSkippedRes_pre]; exact streamSetup_not_skipped ..)
    | exact streamSetup_not_skipped ..

theorem sizePhase_not_skipped (cfg : Cfg) (env : Env) (i : Nat) (st : LoopSt)
    (resp : Response) (offset : Nat) (sizeRaw : Option String) (fs : Nat)
    (hok : inRangeOpt cfg (parseSize sizeRaw)) :
    isSkippedRes (sizePhase cfg env i st resp offset sizeRaw fs) = false := by
  rcases hs : parseSize sizeRaw with _ | s
  · simp only [sizePhase, hs]
    exact pathPhase_not_skipped ..
  · have h1 : ¬(cfg.minsize ≠ 0 ∧ s < cfg.minsize) := by
      rintro ⟨ha, hb⟩
      have := (hok s hs).1 ha
      omega
    have h2 : ¬(cfg.maxsize ≠ 0 ∧ s > cfg.maxsize) := by
      rintro ⟨ha, hb⟩
      have := (hok s hs).2 ha
      omega
    simp only [sizePhase, hs, h1, h2, if_neg, ite_false, if_false]
    exact pathPhase_not_skipped ..

theorem validatePhase_not_skipped (cfg : Cfg) (env : Env) (i : Nat) (st : LoopSt)
    (resp : Response) (offset : Nat) (sizeRaw : Option String) (fs : Nat)
    (hok : inRangeOpt cfg (parseSize sizeRaw)) :
    isSkippedRes (validatePhase cfg env i st resp offset sizeRaw fs) = false := by
  unfold validatePhase
  dsimp only
  repeat' split
  all_goals first
    | rfl
    | exact sizePhase_not_skipped _ _ _ _ _ _ _ _ hok

theorem statusPhase_not_skipped (cfg : Cfg) (env : Env) (i : Nat) (st : LoopSt)
    (resp : Response) (fs : Nat) (hok : sizeOkResp cfg resp) :
    isSkippedRes (statusPhase cfg env i st resp fs) = false := by
  unfold statusPhase
  split
  · exact validatePhase_not_skipped _ _ _ _ _ _ _ _ hok.1
  · split
    · split
      · rfl
      · apply validatePhase_not_skipped
        have h2 := hok.2
        rename_i v heq
        rw [heq] at h2
        simpa using h2
    · split
      · rfl
      · split
        · rfl
        · split
          · rfl
          · rfl

theorem requestPhase_not_skipped (cfg : Cfg) (env : Env) (st : LoopSt)
    (hok : ∀ n u k r', env.server n u k = .ok r' → sizeOkResp cfg r') :
    isSkippedRes (requestPhase cfg env st) = false := by
  rcases hsv : env.server st.reqIdx st.url st.file.length with m | m | m | resp <;>
    simp only [requestPhase, hsv]
  · rfl
  · rfl
  · rfl
  · rw [isSkippedRes_pre]
    exact statusPhase_not_skipped _ _ _ _ _ _ (hok _ _ _ _ hsv)

theorem attemptStep_not_skipped (cfg : Cfg) (env : Env) (st : LoopSt)
    (hok : ∀ n u k r', env.server n u k = .ok r' → sizeOkResp cfg r') :
    isSkippedRes (attemptStep cfg env st) = false := by
  unfold attemptStep
  dsimp only
  repeat' split
  all_goals first
    | rfl
    | (rw [isSkippedRes_pre]; exact requestPhase_not_skipped _ _ _ hok)
    | exact requestPhase_not_skipped _ _ _ hok

theorem loop_not_skipped (cfg : Cfg) (env : Env)
    (hok : ∀ n u k r', env.server n u k = .ok r' → sizeOkResp cfg r') :
    ∀ fuel st res, loop cfg env fuel st = some res → res.outcome ≠ .skipped := by
  intro fuel
  induction fuel with
  | zero => intro st res h; simp [loop] at h
  | succ fuel ih =>
    intro st res h
    rcases ha : attemptStep cfg env st with ⟨tr, st'⟩ | ⟨tr, o, st', mt⟩
    · rw [loop_next cfg env fuel st st' tr ha] at h
      rcases hl : loop cfg env fuel st' with _ | r'
      · rw [hl] at h
        simp at h
      · rw [hl] at h
        simp only [Option.map_some', Option.some.injEq] at h
        have hih := ih st' r' hl
        intro hsk
        apply hih
        rw [← h] at hsk
        exact hsk
    · rw [loop_done cfg env fuel st st' tr o mt ha] at h
      simp only [Option.some.injEq] at h
      have hns := attemptStep_not_skipped cfg env st hok
      rw [ha] at hns
      intro hsk
      rw [← h] at hsk
      have ho : o = .skipped := hsk
      subst ho
      exact absurd hns (by simp [isSkippedRes])

/-- C2 (amended): the declared-size filter.  (a) Any attempt whose
accepted response carries a parseable declared size `s` outside the
configured bounds releases the connection, logs the one size warning,
clears the temp-path variable and ends the invocation with the `Skipped`
outcome — never `Failed` — writing nothing: the attempt's whole trace is
request/release/warn and the on-disk bytes are untouched.  Nothing is
deleted, though: lines 233-246 only set `pathfmt.temppath = ""`, so a
pre-existing partial file survives a `Skipped` return (the counterexample
to the claim's "no temp file remains").  (b) Conversely, if every size
the server ever declares is within bounds (or unparseable / absent), no
run of the downloader ever returns `Skipped`. -/
theorem c2_size_filter (cfg : Cfg) (env : Env) :
    (∀ (st : LoopSt) (resp : Response) (s : Nat),
      env.server st.reqIdx st.url st.file.length = .ok resp →
      (resp.status = 200 ∨ resp.status ∈ cfg.expectedStatus) →
      cfg.httpValidate = none →
      (cfg.validateHtml && (resp.contentType.getD "").startsWith "text/html"
        && !(st.ext = "html" || st.ext = "htm")) = false →
      parseSize resp.contentLength = some s →
      ((cfg.minsize ≠ 0 ∧ s < cfg.minsize) ∨
        (¬(cfg.minsize ≠ 0 ∧ s < cfg.minsize) ∧ cfg.maxsize ≠ 0 ∧ s > cfg.maxsize)) →
      ∃ w, requestPhase cfg env st =
        .done [Ev.request st.url (if st.file.length ≠ 0 then some st.file.length else none),
               Ev.releaseConn, Ev.warn w]
          .skipped
          {st with tries := st.tries + 1, reqIdx := st.reqIdx + 1, hasResponse := false,
                   code := resp.status, tempCleared := true} none ∧
        (w = .sizeMin s cfg.minsize ∨ w = .sizeMax s cfg.maxsize)) ∧
    ((∀ n u k r', env.server n u k = .ok r' → sizeOkResp cfg r') →
      ∀ fuel res, download cfg env fuel = some res → res.outcome ≠ .skipped) := by
  constructor
  · intro st resp s hsrv hst hv hh hps hout
    set stU : LoopSt :=
      {st with tries := st.tries + 1, reqIdx := st.reqIdx + 1, hasResponse := true,
               code := resp.status} with hstU
    have hh' : (cfg.validateHtml && (resp.contentType.getD "").startsWith "text/html"
        && !(stU.ext = "html" || stU.ext = "htm")) = false := hh
    rw [requestPhase_ok cfg env st resp hsrv]
    rw [← hstU]
    rw [statusPhase_ok cfg env st.reqIdx stU resp st.file.length hst]
    rw [validatePhase_none cfg env st.reqIdx stU resp 0 resp.contentLength st.file.length
      hv hh']
    rcases hout with ⟨hmin, hlt⟩ | ⟨hnotmin, hmax, hgt⟩
    · rw [sizePhase_skip_min cfg env st.reqIdx stU resp 0 resp.contentLength st.file.length
        s hps hmin hlt]
      exact ⟨.sizeMin s cfg.minsize, by simp [ARes.pre, hstU], Or.inl rfl⟩
    · rw [sizePhase_skip_max cfg env st.reqIdx stU resp 0 resp.contentLength st.file.length
        s hps hnotmin hmax hgt]
      exact ⟨.sizeMax s cfg.maxsize, by simp [ARes.pre, hstU], Or.inr rfl⟩
  · intro hok fuel res h
    unfold download downloadImpl at h
    rcases hl : loop cfg env fuel (initSt cfg env) with _ | r'
    · rw [hl] at h
      simp at h
    · rw [hl] at h
      simp only [Option.map_some', Option.some.injEq] at h
      have hout := loop_not_skipped cfg env hok fuel (initSt cfg env) r' hl
      have hpres : res.outcome = r'.outcome := by
        rw [← h]
        split <;> rfl
      rw [hpres]
      exact hout

/-! ### List helpers for the signature table and the extension resolver -/

theorem takeWhile_all {α : Type} (p : α → Bool) :
    ∀ l : List α, (∀ x ∈ l, p x = true) → l.takeWhile p = l := by
  intro l
  induction l with
  | nil => intro _; rfl
  | cons a l ih =>
    intro h
    have ha := h a (by simp)
    rw [List.takeWhile_cons, ha]
    simp only [if_true]
    rw [ih (fun x hx => h x (by simp [hx]))]

theorem takeWhile_stop {α : Type} (p : α → Bool) :
    ∀ (l1 : List α) (c : α) (l2 : List α), (∀ x ∈ l1, p x = true) → p c = false →
      (l1 ++ c :: l2).takeWhile p = l1 := by
  intro l1
  induction l1 with
  | nil => intro c l2 _ hc; simp [List.takeWhile_cons, hc]
  | cons a l1 ih =>
    intro c l2 h hc
    have ha := h a (by simp)
    rw [List.cons_append, List.takeWhile_cons, ha]
    simp only [if_true]
    rw [ih c l2 (fun x hx => h x (by simp [hx])) hc]

theorem find?_first {α : Type} (p : α → Bool) :
    ∀ (l : List α) (x : α), l.find? p = some x →
      ∃ l1 l2, l = l1 ++ x :: l2 ∧ p x = true ∧ ∀ y ∈ l1, p y = false := by
  intro l
  induction l with
  | nil => intro x h; simp [List.find?] at h
  | cons a l ih =>
    intro x h
    rcases hp : p a with _ | _
    · rw [List.find?] at h
      rw [hp] at h
      obtain ⟨l1, l2, he, hx, hall⟩ := ih x h
      refine ⟨a :: l1, l2, by rw [he]; rfl, hx, ?_⟩
      intro y hy
      rcases List.mem_cons.mp hy with rfl | hy'
      · exact hp
      · exact hall y hy'
    · rw [List.find?] at h
      rw [hp] at h
      simp only [Option.some.injEq] at h
      subst h
      exact ⟨[], l, rfl, hp, by simp⟩

theorem find?_append_first {α : Type} (p : α → Bool) :
    ∀ (l1 : List α) (x : α) (l2 : List α), (∀ y ∈ l1, p y = false) → p x = true →
      (l1 ++ x :: l2).find? p = some x := by
  intro l1
  induction l1 with
  | nil => intro x l2 _ hx; simp [List.find?, hx]
  | cons a l1 ih =>
    intro x l2 h hx
    have ha := h a (by simp)
    simp only [List.cons_append, List.find?, ha]
    exact ih x l2 (fun y hy => h y (by simp [hy])) hx

theorem contains_append_left (l1 l2 : List Char) (a : Char)
    (h : l1.contains a = true) : (l1 ++ l2).contains a = true := by
  have hm : a ∈ l1 := by simpa using h
  simpa using List.mem_append_left l2 hm

/-- Witness for `c2_size_filter`: a declared size of 5 below the
configured minimum of 10 is skipped with the size warning. -/
theorem c2_size_filter_witness :
    ∃ w, requestPhase cfgMin10 envLen5 (mkSt "http://x/f.jpg" "jpg" []) =
      .done [Ev.request "http://x/f.jpg" none, Ev.releaseConn, Ev.warn w] .skipped
        { url := "http://x/f.jpg", ext := "jpg", file := [], tries := 1, code := 200,
          msg := "", reqIdx := 1, metadataPending := false, tempCleared := true,
          downloading := false, hasResponse := false } none ∧
      (w = .sizeMin 5 10 ∨ w = .sizeMax 5 0) := by
  have h := (c2_size_filter cfgMin10 envLen5).1 (mkSt "http://x/f.jpg" "jpg" [])
    respLen5 5 rfl (Or.inl rfl) rfl (by decide) (by decide) (Or.inl (by decide))
  simpa [respLen5] using h

/-- Counterexample to C2 as stated: the claim's "clears the temp path
(no temp file remains)" is false of the source — lines 233-246 only set
`pathfmt.temppath = ""` and delete nothing.  A resume attempt with a
1-byte partial already on disk, answered by an out-of-range declared
size, returns `Skipped` with the partial file still on disk. -/
theorem c2_claim_counterexample :
    ∃ res, download cfgMin10 envLen5Part 3 = some res ∧
      res.outcome = .skipped ∧
      res.st.tempCleared = true ∧
      res.st.file = [9] ∧
      res.st.file ≠ [] := by
  refine ⟨_, rfl, ?_, ?_, ?_, ?_⟩ <;> decide

/-- C7: the extension derived from the Content-Type.  (1) Parameters
after `';'` are stripped: a type `a;params` resolves exactly as `a`.
(2) A type with no slash is defaulted to the `image/` class.  (3) A type
found in the explicit MIME table resolves there, with no warning.
(4) Otherwise the generic system resolver's answer is used with its
leading dot removed, with no warning.  (5) When that also fails, the
extension is `"bin"` and the unknown-MIME warning is emitted (the `Bool`
in `findExtension`'s result records the warning). -/
theorem c7_extension_resolver :
    (∀ (env : Env) (resp : Response) (a b : String), (';' ∈ a.toList → False) →
      findExtension env {resp with contentType := some (a ++ ";" ++ b)} =
        findExtension env {resp with contentType := some a}) ∧
    (∀ (env : Env) (resp : Response) (m : String),
      (';' ∈ m.toList → False) → ('/' ∈ m.toList → False) →
      findExtension env {resp with contentType := some m} =
        findExtension env {resp with contentType := some ("image/" ++ m)}) ∧
    (∀ (env : Env) (resp : Response) (ct e : String),
      resp.contentType = some ct →
      MIME_TYPES.lookup (normalizeMime ct) = some e →
      findExtension env resp = (e, none)) ∧
    (∀ (env : Env) (resp : Response) (ct : String) (cs : List Char),
      resp.contentType = some ct →
      MIME_TYPES.lookup (normalizeMime ct) = none →
      env.guessExtension (normalizeMime ct) = some (('.' :: cs).asString) →
      findExtension env resp = (cs.asString, none)) ∧
    (∀ (env : Env) (resp : Response) (ct : String),
      resp.contentType = some ct →
      MIME_TYPES.lookup (normalizeMime ct) = none →
      env.guessExtension (normalizeMime ct) = none →
      findExtension env resp = ("bin", some (normalizeMime ct))) := by
  refine ⟨?_, ?_, ?_, ?_, ?_⟩
  · intro env resp a b hnosemi
    have hdata : (a ++ ";" ++ b).toList = a.toList ++ ';' :: b.toList := by
      simp [String.toList, String.data_append]
    have hstrip1 : stripParams (a ++ ";" ++ b) = a := by
      unfold stripParams
      rw [hdata, takeWhile_stop _ a.toList ';' b.toList
        (fun x hx => by
          simp only [decide_eq_true_eq]
          intro hc
          exact hnosemi (hc ▸ hx))
        (by simp)]
      rfl
    have hstrip2 : stripParams a = a := by
      unfold stripParams
      rw [takeWhile_all _ a.toList
        (fun x hx => by
          simp only [decide_eq_true_eq]
          intro hc
          exact hnosemi (hc ▸ hx))]
      rfl
    have hn : normalizeMime (a ++ ";" ++ b) = normalizeMime a := by
      unfold normalizeMime
      rw [hstrip1, hstrip2]
    simp only [findExtension, Option.getD_some]
    rw [hn]
  · intro env resp m hnosemi hnoslash
    have hstrip2 : stripParams m = m := by
      unfold stripParams
      rw [takeWhile_all _ m.toList
        (fun x hx => by
          simp only [decide_eq_true_eq]
          intro hc
          exact hnosemi (hc ▸ hx))]
      rfl
    have happ : ("image/" ++ m).toList = "image/".toList ++ m.toList := by
      simp [String.toList, String.data_append]
    have hstrip3 : stripParams ("image/" ++ m) = "image/" ++ m := by
      unfold stripParams
      rw [happ, takeWhile_all _ ("image/".toList ++ m.toList)
        (fun x hx => by
          rcases List.mem_append.mp hx with h | h
          · have hall : ∀ y ∈ "image/".toList, (decide (y ≠ ';')) = true := by decide
            exact hall x h
          · simp only [decide_eq_true_eq]
            intro hc
            exact hnosemi (hc ▸ h))]
      rw [← happ]
      rfl
    have hnc : ¬(m.toList.contains '/' = true) := by
      intro hc
      exact hnoslash (by simpa using hc)
    have hyc : ("image/" ++ m).toList.contains '/' = true := by
      rw [happ]
      exact contains_append_left _ _ _ (by decide)
    have hn1 : normalizeMime m = "image/" ++ m := by
      unfold normalizeMime
      rw [hstrip2, if_neg hnc]
    have hn2 : normalizeMime ("image/" ++ m) = "image/" ++ m := by
      unfold normalizeMime
      rw [hstrip3, if_pos hyc]
    simp only [findExtension, Option.getD_some]
    rw [hn1, hn2]
  · intro env resp ct e hct hlk
    simp [findExtension, hct, hlk]
  · intro env resp ct cs hct hlk hg
    simp only [findExtension, hct, Option.getD_some, hlk, hg]
    rfl
  · intro env resp ct hct hlk hg
    simp [findExtension, hct, hlk, hg]

/-- Witness for `c7_extension_resolver` across its five clauses at
concrete content types. -/
theorem c7_extension_resolver_witness :
    (findExtension envGuess { status := 200, contentType := some ("image/png" ++ ";" ++ " charset=x") } =
      findExtension envGuess { status := 200, contentType := some "image/png" }) ∧
    (findExtension envGuess { status := 200, contentType := some "png" } =
      findExtension envGuess { status := 200, contentType := some ("image/" ++ "png") }) ∧
    (findExtension envGuess { status := 200, contentType := some "image/png" } = ("png", none)) ∧
    (findExtension envGuess { status := 200, contentType := some "application/weird" } =
      (("wrd".toList).asString, none)) ∧
    (findExtension envGuess { status := 200, contentType := some "application/unknown" } =
      ("bin", some "application/unknown")) := by
  refine ⟨?_, ?_, ?_, ?_, ?_⟩
  · exact (c7_extension_resolver).1 envGuess { status := 200 } "image/png" " charset=x"
      (by decide)
  · exact (c7_extension_resolver).2.1 envGuess { status := 200 } "png" (by decide) (by decide)
  · exact (c7_extension_resolver).2.2.1 envGuess { status := 200, contentType := some "image/png" }
      "image/png" "png" rfl (by decide)
  · exact (c7_extension_resolver).2.2.2.1 envGuess
      { status := 200, contentType := some "application/weird" } "application/weird"
      "wrd".toList rfl (by decide) (by decide)
  · exact (c7_extension_resolver).2.2.2.2 envGuess
      { status := 200, contentType := some "application/unknown" } "application/unknown"
      rfl (by decide) (by decide)

/-! ### Temp-file removal (claim C5) -/

theorem ARes.tr_pre (r : ARes) (t : List Ev) : (r.pre t).tr = t ++ r.tr := by
  cases r <;> rfl

theorem recvGo_noRT (env : Env) (cfg : Cfg) (i : Nat) (sA cA : Option Nat)
    (size : Option Nat) (bytesStart : Nat) :
    ∀ (items : List StreamItem) (j bd : Nat) (file : Bytes),
      Ev.removeTemp ∉ (recvGo env cfg i sA cA size bytesStart items j bd file).1 := by
  intro items
  induction items with
  | nil => intro j bd file; simp [recvGo]
  | cons it rest ih =>
    intro j bd file
    cases it with
    | err m => simp [recvGo]
    | data bs =>
      unfold recvGo
      dsimp only
      repeat' split
      all_goals simp_all [List.mem_append]

theorem openPhase_noRT (cfg : Cfg) (env : Env) (i : Nat) (st : LoopSt) (resp : Response)
    (offset : Nat) (size : Option Nat) (fs : Nat) (hdr : Option Bytes)
    (items : List StreamItem) :
    Ev.removeTemp ∉ (openPhase cfg env i st resp offset size fs hdr items).tr := by
  unfold openPhase postLoop
  dsimp only
  split
  · repeat' split
    all_goals simp [ARes.tr, List.mem_append]
  · split
    · repeat' split
      all_goals simp [ARes.tr, List.mem_append]
    · rename_i stage heq
      repeat' split at heq
      all_goals first
        | exact Option.noConfusion heq
        | (injection heq with heq2
           subst heq2
           dsimp only
           repeat' split
           all_goals simp [ARes.tr, List.mem_append, recvGo_noRT])

theorem streamSetup_noRT (cfg : Cfg) (env : Env) (i : Nat) (st : LoopSt) (resp : Response)
    (offset : Nat) (size : Option Nat) (fs : Nat) :
    Ev.removeTemp ∉ (streamSetupPhase cfg env i st resp offset size fs).tr := by
  unfold streamSetupPhase
  dsimp only
  repeat' split
  all_goals first
    | (rw [ARes.tr_pre]; simp [List.mem_append, openPhase_noRT])
    | exact openPhase_noRT _ _ _ _ _ _ _ _ _ _
    | simp [ARes.tr]

theorem pathPhase_noRT (cfg : Cfg) (env : Env) (i : Nat) (st : LoopSt) (resp : Response)
    (offset : Nat) (size : Option Nat) (fs : Nat) :
    Ev.removeTemp ∉ (pathPhase cfg env i st resp offset size fs).tr := by
  unfold pathPhase
  dsimp only
  repeat' split
  all_goals first
    | (rw [ARes.tr_pre]; simp [List.mem_append, streamSetup_noRT])
    | exact streamSetup_noRT _ _ _ _ _ _ _ _
    | simp [ARes.tr]

theorem sizePhase_noRT (cfg : Cfg) (env : Env) (i : Nat) (st : LoopSt) (resp : Response)
    (offset : Nat) (sizeRaw : Option String) (fs : Nat) :
    Ev.removeTemp ∉ (sizePhase cfg env i st resp offset sizeRaw fs).tr := by
  unfold sizePhase
  repeat' split
  all_goals first
    | exact pathPhase_noRT _ _ _ _ _ _ _ _
    | simp [ARes.tr]

theorem validatePhase_noRT (cfg : Cfg) (env : Env) (i : Nat) (st : LoopSt) (resp : Response)
    (offset : Nat) (sizeRaw : Option String) (fs : Nat) :
    Ev.removeTemp ∉ (validatePhase cfg env i st resp offset sizeRaw fs).tr := by
  unfold validatePhase
  dsimp only
  repeat' split
  all_goals first
    | exact sizePhase_noRT _ _ _ _ _ _ _ _
    | simp [ARes.tr]

theorem chlEvs_noRT (resp : Response) : Ev.removeTemp ∉ chlEvs resp := by
  unfold chlEvs
  split <;> simp

theorem statusPhase_noRT (cfg : Cfg) (env : Env) (i : Nat) (st : LoopSt) (resp : Response)
    (fs : Nat) :
    Ev.removeTemp ∉ (statusPhase cfg env i st resp fs).tr := by
  unfold statusPhase postLoop
  dsimp only
  repeat' split
  all_goals first
    | exact validatePhase_noRT _ _ _ _ _ _ _ _
    | simp [ARes.tr, List.mem_append, chlEvs_noRT]

theorem requestPhase_noRT (cfg : Cfg) (env : Env) (st : LoopSt) :
    Ev.removeTemp ∉ (requestPhase cfg env st).tr := by
  unfold requestPhase
  dsimp only
  repeat' split
  all_goals first
    | (rw [ARes.tr_pre]; simp [List.mem_append, statusPhase_noRT])
    | simp [ARes.tr]

theorem attemptStep_noRT (cfg : Cfg) (env : Env) (st : LoopSt) :
    Ev.removeTemp ∉ (attemptStep cfg env st).tr := by
  unfold attemptStep
  dsimp only
  repeat' split
  all_goals first
    | (rw [ARes.tr_pre]; simp [List.mem_append, requestPhase_noRT])
    | exact requestPhase_noRT _ _ _
    | simp [ARes.tr, List.mem_append]

theorem loop_noRT (cfg : Cfg) (env : Env) :
    ∀ (fuel : Nat) (st : LoopSt) (res : RunEnd),
      loop cfg env fuel st = some res → Ev.removeTemp ∉ res.trace := by
  intro fuel
  induction fuel with
  | zero => intro st res h; simp [loop] at h
  | succ fuel ih =>
    intro st res h
    have hns := attemptStep_noRT cfg env st
    rcases ha : attemptStep cfg env st with ⟨tr, st'⟩ | ⟨tr, o, st', mt⟩
    · rw [ha] at hns
      simp only [ARes.tr] at hns
      rw [loop_next cfg env fuel st st' tr ha] at h
      rcases hl : loop cfg env fuel st' with _ | r'
      · rw [hl] at h
        simp at h
      · rw [hl] at h
        simp only [Option.map_some', Option.some.injEq] at h
        intro hm
        rw [← h] at hm
        simp only [List.mem_append] at hm
        rcases hm with hm | hm
        · exact hns hm
        · exact ih st' r' hl hm
    · rw [ha] at hns
      simp only [ARes.tr] at hns
      rw [loop_done cfg env fuel st st' tr o mt ha] at h
      simp only [Option.some.injEq] at h
      intro hm
      rw [← h] at hm
      exact hns hm

/-- C5 (amended): the `finally` block of `download` removes the temp file
exactly when the `downloading` flag is still set AND `.part` files are
disabled — the outcome is not what decides removal.  In every invocation:
the removal event occurs in the trace if and only if the final
`downloading` flag is set and `cfg.part` is off; and whenever removal
occurs with the temp path not already cleared, the temp file's bytes are
gone. -/
theorem c5_temp_removal (cfg : Cfg) (env : Env) (fuel : Nat) (res : RunEnd)
    (h : download cfg env fuel = some res) :
    (Ev.removeTemp ∈ res.trace ↔ (res.st.downloading = true ∧ cfg.part = false)) ∧
    (Ev.removeTemp ∈ res.trace → res.st.tempCleared = false → res.st.file = []) := by
  unfold download downloadImpl at h
  rcases hl : loop cfg env fuel (initSt cfg env) with _ | r
  · rw [hl] at h
    simp at h
  · rw [hl] at h
    simp only [Option.map_some', Option.some.injEq] at h
    have hnr : Ev.removeTemp ∉
        (if cfg.part && !cfg.metadata then [Ev.partEnable] else []) ++ r.trace := by
      intro hm
      simp only [List.mem_append] at hm
      rcases hm with hm | hm
      · revert hm
        split <;> simp
      · exact loop_noRT cfg env fuel (initSt cfg env) r hl hm
    by_cases hdl : (r.st.downloading && !cfg.part) = true
    · rw [if_pos hdl] at h
      rw [← h]
      have hdn : r.st.downloading = true := (Bool.and_eq_true .. |>.mp hdl).1
      have hpt : cfg.part = false := by
        have := (Bool.and_eq_true .. |>.mp hdl).2
        simpa using this
      refine ⟨⟨fun _ => ⟨hdn, hpt⟩, fun _ => by simp⟩, fun _ hc => ?_⟩
      simp only at hc ⊢
      rw [if_neg (by simp [hc])]
    · rw [if_neg hdl] at h
      rw [← h]
      refine ⟨⟨fun hm => absurd hm hnr, fun hp => absurd (by rw [hp.1, hp.2]; rfl) hdl⟩,
        fun hm _ => absurd hm hnr⟩

/-- Witness for `c5_temp_removal`: with `.part` disabled, a transport
error mid-stream leaves `downloading` set, so the temp file is removed
and its bytes are gone, even though a byte had been written. -/
theorem c5_temp_removal_witness :
    ∃ res, download cfgNoPart0 envErrBody 3 = some res ∧
      Ev.removeTemp ∈ res.trace ∧ res.st.file = [] := by
  refine ⟨_, rfl, ?_, ?_⟩
  · exact ((c5_temp_removal cfgNoPart0 envErrBody 3 _ rfl).1).mpr (by decide)
  · exact (c5_temp_removal cfgNoPart0 envErrBody 3 _ rfl).2
      (((c5_temp_removal cfgNoPart0 envErrBody 3 _ rfl).1).mpr (by decide)) (by decide)

/-- Counterexample to C5 as stated: with `.part` files enabled (the
default), a `Failed` invocation — one byte written, then a transport
error, no retries left — removes nothing: the temp path is not cleared,
the written byte remains on disk, and no removal event is in the trace,
contradicting "no Failed or Skipped outcome leaves a temp file behind". -/
theorem c5_claim_counterexample :
    ∃ res, download cfgPlain0 envErrBody 3 = some res ∧
      res.outcome = .failed ∧
      res.st.file = [7] ∧
      res.st.tempCleared = false ∧
      Ev.removeTemp ∉ res.trace := by
  refine ⟨_, rfl, ?_, ?_, ?_, ?_⟩ <;> decide

/-! ### The failure-warning discipline (claim C9) -/

theorem takeWhile_append_all {α : Type} (p : α → Bool) :
    ∀ (l1 l2 : List α), (∀ x ∈ l1, p x = true) →
      (l1 ++ l2).takeWhile p = l1 ++ l2.takeWhile p := by
  intro l1
  induction l1 with
  | nil => intro l2 _; rfl
  | cons a l1 ih =>
    intro l2 h
    have ha := h a (by simp)
    rw [List.cons_append, List.takeWhile_cons, ha]
    rw [ih l2 (fun x hx => h x (by simp [hx]))]
    simp

theorem takeWhile_append_stopAt {α : Type} (p : α → Bool) :
    ∀ (l1 l2 : List α) (c : α), c ∈ l1 → p c = false →
      (l1 ++ l2).takeWhile p = l1.takeWhile p := by
  intro l1
  induction l1 with
  | nil => intro l2 c hc _; simp at hc
  | cons a l1 ih =>
    intro l2 c hc hpc
    rcases hpa : p a with _ | _
    · rw [List.cons_append, List.takeWhile_cons, List.takeWhile_cons, hpa]
      simp
    · rw [List.cons_append, List.takeWhile_cons, List.takeWhile_cons, hpa]
      simp only [if_true]
      rcases List.mem_cons.mp hc with heq | hc2
      · rw [heq] at hpc
        rw [hpa] at hpc
        cases hpc
      · rw [ih l2 c hc2 hpc]

theorem afterLastReq_free (tr : List Ev) (h : ∀ e ∈ tr, isReqEv e = false) :
    afterLastReq tr = tr := by
  unfold afterLastReq
  rw [takeWhile_all _ tr.reverse
    (fun x hx => by simp [h x (List.mem_reverse.mp hx)])]
  exact List.reverse_reverse tr

theorem afterLastReq_append_free (a b : List Ev) (h : ∀ e ∈ b, isReqEv e = false) :
    afterLastReq (a ++ b) = afterLastReq a ++ b := by
  unfold afterLastReq
  rw [List.reverse_append]
  rw [takeWhile_append_all _ b.reverse a.reverse
    (fun x hx => by simp [h x (List.mem_reverse.mp hx)])]
  rw [List.reverse_append, List.reverse_reverse]

theorem afterLastReq_append_req (a b : List Ev) (e : Ev) (he : e ∈ b)
    (hr : isReqEv e = true) :
    afterLastReq (a ++ b) = afterLastReq b := by
  unfold afterLastReq
  rw [List.reverse_append]
  rw [takeWhile_append_stopAt _ b.reverse a.reverse e (List.mem_reverse.mpr he)
    (by simp [hr])]

theorem causeCount_append (a b : List Ev) :
    causeCount (a ++ b) = causeCount a + causeCount b := by
  simp [causeCount, List.countP_append]

theorem causeCount_cons (e : Ev) (tr : List Ev) :
    causeCount (e :: tr) = causeCount tr + (if isCauseWarn e then 1 else 0) := by
  simp [causeCount, List.countP_cons]

theorem causeCount_nil : causeCount [] = 0 := rfl

theorem evsFreeB_nil : evsFreeB [] = true := rfl

theorem evsFreeB_cons (e : Ev) (tr : List Ev) :
    evsFreeB (e :: tr) = (!isReqEv e && evsFreeB tr) := rfl

theorem evsFreeB_append (a b : List Ev) :
    evsFreeB (a ++ b) = (evsFreeB a && evsFreeB b) := by
  simp [evsFreeB, List.all_append]

theorem evsFreeB_mem (tr : List Ev) (h : evsFreeB tr = true) :
    ∀ e ∈ tr, isReqEv e = false := by
  intro e he
  have h2 := (List.all_eq_true.mp h) e he
  simpa using h2

theorem afterLastReq_req_cons (u : String) (rng : Option Nat) (b : List Ev)
    (h : ∀ e ∈ b, isReqEv e = false) :
    afterLastReq (Ev.request u rng :: b) = b := by
  have hsplit : Ev.request u rng :: b = [Ev.request u rng] ++ b := rfl
  have h2 : afterLastReq [Ev.request u rng] = [] := rfl
  rw [hsplit, afterLastReq_append_free _ _ h, h2]
  rfl

theorem evsFreeB_chl (resp : Response) : evsFreeB (chlEvs resp) = true := by
  unfold chlEvs
  split <;> rfl

theorem causeCount_chl (resp : Response) : causeCount (chlEvs resp) = 0 := by
  unfold chlEvs
  split <;> rfl

theorem recvGo_evs (env : Env) (cfg : Cfg) (i : Nat) (sA cA : Option Nat)
    (size : Option Nat) (bytesStart : Nat) :
    ∀ (items : List StreamItem) (j bd : Nat) (file : Bytes),
      evsFreeB (recvGo env cfg i sA cA size bytesStart items j bd file).1 = true ∧
      causeCount (recvGo env cfg i sA cA size bytesStart items j bd file).1 = 0 := by
  intro items
  induction items with
  | nil => intro j bd file; simp [recvGo, evsFreeB, causeCount]
  | cons it rest ih =>
    intro j bd file
    cases it with
    | err m => simp [recvGo, evsFreeB, causeCount]
    | data bs =>
      unfold recvGo
      dsimp only
      repeat' split
      all_goals simp_all [evsFreeB_cons, evsFreeB_append, evsFreeB_nil, causeCount_cons,
        causeCount_append, causeCount_nil, isReqEv, isCauseWarn]

theorem recvGo_evsFree (env : Env) (cfg : Cfg) (i : Nat) (sA cA : Option Nat)
    (size : Option Nat) (bytesStart : Nat) (items : List StreamItem) (j bd : Nat)
    (file : Bytes) :
    evsFreeB (recvGo env cfg i sA cA size bytesStart items j bd file).1 = true :=
  (recvGo_evs env cfg i sA cA size bytesStart items j bd file).1

theorem recvGo_causeZero (env : Env) (cfg : Cfg) (i : Nat) (sA cA : Option Nat)
    (size : Option Nat) (bytesStart : Nat) (items : List StreamItem) (j bd : Nat)
    (file : Bytes) :
    causeCount (recvGo env cfg i sA cA size bytesStart items j bd file).1 = 0 :=
  (recvGo_evs env cfg i sA cA size bytesStart items j bd file).2

theorem recvGo_noStop (env : Env) (cfg : Cfg) (i : Nat) (cA : Option Nat)
    (size : Option Nat) (bytesStart : Nat) :
    ∀ (items : List StreamItem) (j bd : Nat) (file : Bytes),
      (recvGo env cfg i none cA size bytesStart items j bd file).2.2 ≠ RecvRes.stopEx := by
  intro items
  induction items with
  | nil => intro j bd file; simp [recvGo]
  | cons it rest ih =>
    intro j bd file
    cases it with
    | err m => simp [recvGo]
    | data bs =>
      unfold recvGo
      dsimp only
      repeat' split
      all_goals simp_all

theorem causeOk_pre (r : ARes) (t : List Ev) (hf : evsFreeB t = true)
    (hc : causeCount t = 0) (h : causeOk r) : causeOk (r.pre t) := by
  cases r <;> simp_all [causeOk, ARes.pre, evsFreeB_append, causeCount_append]

set_option maxHeartbeats 1600000 in
theorem openPhase_c9 (cfg : Cfg) (env : Env) (i : Nat) (st : LoopSt) (resp : Response)
    (offset : Nat) (size : Option Nat) (fs : Nat) (hdr : Option Bytes)
    (items : List StreamItem) (hns : resp.stopAfter = none) :
    causeOk (openPhase cfg env i st resp offset size fs hdr items) := by
  unfold openPhase postLoop
  dsimp only
  rw [hns]
  split
  · repeat' split
    all_goals simp [causeOk, evsFreeB_cons, evsFreeB_append, evsFreeB_nil, causeCount_cons,
      causeCount_append, causeCount_nil, isReqEv, isCauseWarn]
  · split
    · repeat' split
      all_goals simp [causeOk, evsFreeB_cons, evsFreeB_append, evsFreeB_nil, causeCount_cons,
        causeCount_append, causeCount_nil, isReqEv, isCauseWarn]
    · rename_i stage heq
      repeat' split at heq
      all_goals first
        | exact Option.noConfusion heq
        | (injection heq with heq2
           subst heq2
           dsimp only
           repeat' split
           all_goals first
             | (exfalso; exact recvGo_noStop _ _ _ _ _ _ _ _ _ _ (by assumption))
             | simp_all [causeOk, evsFreeB_cons, evsFreeB_append, evsFreeB_nil,
                 causeCount_cons, causeCount_append, causeCount_nil, isReqEv, isCauseWarn,
                 recvGo_evsFree, recvGo_causeZero])

theorem streamSetup_c9 (cfg : Cfg) (env : Env) (i : Nat) (st : LoopSt) (resp : Response)
    (offset : Nat) (size : Option Nat) (fs : Nat) (hns : resp.stopAfter = none) :
    causeOk (streamSetupPhase cfg env i st resp offset size fs) := by
  unfold streamSetupPhase
  dsimp only
  repeat' split
  all_goals first
    | exact openPhase_c9 _ _ _ _ _ _ _ _ _ _ hns
    | (refine causeOk_pre _ _ ?_ ?_ (openPhase_c9 _ _ _ _ _ _ _ _ _ _ hns) <;>
        simp [evsFreeB_cons, evsFreeB_nil, causeCount_cons, causeCount_nil, isReqEv,
          isCauseWarn])
    | simp_all [causeOk, evsFreeB_cons, evsFreeB_nil, causeCount_cons, causeCount_nil,
        isReqEv, isCauseWarn]

theorem pathPhase_c9 (cfg : Cfg) (env : Env) (i : Nat) (st : LoopSt) (resp : Response)
    (offset : Nat) (size : Option Nat) (fs : Nat) (hns : resp.stopAfter = none) :
    causeOk (pathPhase cfg env i st resp offset size fs) := by
  unfold pathPhase
  dsimp only
  repeat' split
  all_goals first
    | exact streamSetup_c9 _ _ _ _ _ _ _ _ hns
    | (refine causeOk_pre _ _ ?_ ?_ (streamSetup_c9 _ _ _ _ _ _ _ _ hns) <;>
        simp [evsFreeB_cons, evsFreeB_append, evsFreeB_nil, causeCount_cons,
          causeCount_append, causeCount_nil, isReqEv, isCauseWarn])
    | simp_all [causeOk, evsFreeB_cons, evsFreeB_append, evsFreeB_nil, causeCount_cons,
        causeCount_append, causeCount_nil, isReqEv, isCauseWarn]

theorem sizePhase_c9 (cfg : Cfg) (env : Env) (i : Nat) (st : LoopSt) (resp : Response)
    (offset : Nat) (sizeRaw : Option String) (fs : Nat) (hns : resp.stopAfter = none) :
    causeOk (sizePhase cfg env i st resp offset sizeRaw fs) := by
  unfold sizePhase
  repeat' split
  all_goals first
    | exact pathPhase_c9 _ _ _ _ _ _ _ _ hns
    | simp_all [causeOk, evsFreeB_cons, evsFreeB_nil, causeCount_cons, causeCount_nil,
        isReqEv, isCauseWarn]

theorem validatePhase_c9 (cfg : Cfg) (env : Env) (i : Nat) (st : LoopSt) (resp : Response)
    (offset : Nat) (sizeRaw : Option String) (fs : Nat) (hns : resp.stopAfter = none) :
    causeOk (validatePhase cfg env i st resp offset sizeRaw fs) := by
  unfold validatePhase
  dsimp only
  repeat' split
  all_goals first
    | exact sizePhase_c9 _ _ _ _ _ _ _ _ hns
    | simp_all [causeOk, evsFreeB_cons, evsFreeB_nil, causeCount_cons, causeCount_nil,
        isReqEv, isCauseWarn]

theorem statusPhase_c9 (cfg : Cfg) (env : Env) (i : Nat) (st : LoopSt) (resp : Response)
    (fs : Nat) (hns : resp.stopAfter = none) :
    causeOk (statusPhase cfg env i st resp fs) := by
  unfold statusPhase postLoop
  dsimp only
  repeat' split
  all_goals first
    | exact validatePhase_c9 _ _ _ _ _ _ _ _ hns
    | simp_all [causeOk, evsFreeB_cons, evsFreeB_append, evsFreeB_nil, causeCount_cons,
        causeCount_append, causeCount_nil, isReqEv, isCauseWarn, evsFreeB_chl,
        causeCount_chl]

theorem c9_pre_req (r : ARes) (u : String) (rng : Option Nat) (hco : causeOk r) :
    (∀ tr st', r.pre [Ev.request u rng] = .next tr st' →
      causeCount (afterLastReq tr) = 0 ∧ ∃ e ∈ tr, isReqEv e = true) ∧
    (∀ tr o st' mt, r.pre [Ev.request u rng] = .done tr o st' mt →
      (∃ e ∈ tr, isReqEv e = true) ∧
      ((o = .failed ∨ o = .skipped) → causeCount (afterLastReq tr) = 1)) := by
  cases r with
  | next t s =>
    obtain ⟨hf, hc⟩ := hco
    constructor
    · intro tr st' h
      simp only [ARes.pre] at h
      cases h
      refine ⟨?_, ⟨Ev.request u rng, by simp, rfl⟩⟩
      have hsplit : [Ev.request u rng] ++ t = Ev.request u rng :: t := rfl
      rw [hsplit, afterLastReq_req_cons u rng t (evsFreeB_mem t hf)]
      exact hc
    · intro tr o st' mt h
      simp only [ARes.pre] at h
      cases h
  | done t o2 s m2 =>
    obtain ⟨hf, hc⟩ := hco
    constructor
    · intro tr st' h
      simp only [ARes.pre] at h
      cases h
    · intro tr o st' mt h
      simp only [ARes.pre] at h
      cases h
      refine ⟨⟨Ev.request u rng, by simp, rfl⟩, fun ho => ?_⟩
      have hsplit : [Ev.request u rng] ++ t = Ev.request u rng :: t := rfl
      rw [hsplit, afterLastReq_req_cons u rng t (evsFreeB_mem t hf)]
      exact hc ho

theorem requestPhase_c9 (cfg : Cfg) (env : Env) (st : LoopSt)
    (hok : ∀ n u k r', env.server n u k = .ok r' → r'.stopAfter = none) :
    (∀ tr st', requestPhase cfg env st = .next tr st' →
      causeCount (afterLastReq tr) = 0 ∧ ∃ e ∈ tr, isReqEv e = true) ∧
    (∀ tr o st' mt, requestPhase cfg env st = .done tr o st' mt →
      (∃ e ∈ tr, isReqEv e = true) ∧
      ((o = .failed ∨ o = .skipped) → causeCount (afterLastReq tr) = 1)) := by
  rcases hsv : env.server st.reqIdx st.url st.file.length with m | m | m | resp <;>
    simp only [requestPhase, hsv]
  · exact c9_pre_req (ARes.next [] _) _ _ ⟨rfl, rfl⟩
  · exact c9_pre_req (ARes.next [] _) _ _ ⟨rfl, rfl⟩
  · exact c9_pre_req (ARes.done [Ev.warn (.exc m)] .failed _ none) _ _ ⟨rfl, fun _ => rfl⟩
  · exact c9_pre_req _ _ _ (statusPhase_c9 _ _ _ _ _ _ (hok _ _ _ _ hsv))

theorem c9_pre_wait (r : ARes) (pre : List Ev)
    (hnext : ∀ tr st', r = .next tr st' →
      causeCount (afterLastReq tr) = 0 ∧ ∃ e ∈ tr, isReqEv e = true)
    (hdone : ∀ tr o st' mt, r = .done tr o st' mt →
      (∃ e ∈ tr, isReqEv e = true) ∧
      ((o = .failed ∨ o = .skipped) → causeCount (afterLastReq tr) = 1)) :
    (∀ tr st', r.pre pre = .next tr st' →
      causeCount (afterLastReq tr) = 0 ∧ ∃ e ∈ tr, isReqEv e = true) ∧
    (∀ tr o st' mt, r.pre pre = .done tr o st' mt →
      (o = .failed ∨ o = .skipped) → causeCount (afterLastReq tr) = 1) := by
  cases r with
  | next t s =>
    constructor
    · intro tr st' h
      simp only [ARes.pre] at h
      cases h
      obtain ⟨hc0, e, he, hre⟩ := hnext t s rfl
      refine ⟨?_, ⟨e, List.mem_append_right _ he, hre⟩⟩
      rw [afterLastReq_append_req _ _ e he hre]
      exact hc0
    · intro tr o st' mt h
      simp only [ARes.pre] at h
      cases h
  | done t o2 s m2 =>
    constructor
    · intro tr st' h
      simp only [ARes.pre] at h
      cases h
    · intro tr o st' mt h ho
      simp only [ARes.pre] at h
      cases h
      obtain ⟨⟨e, he, hre⟩, hcc⟩ := hdone t o2 s m2 rfl
      rw [afterLastReq_append_req _ _ e he hre]
      exact hcc ho

theorem attemptStep_c9 (cfg : Cfg) (env : Env) (st : LoopSt)
    (hok : ∀ n u k r', env.server n u k = .ok r' → r'.stopAfter = none) :
    (∀ tr st', attemptStep cfg env st = .next tr st' →
      causeCount (afterLastReq tr) = 0 ∧ ∃ e ∈ tr, isReqEv e = true) ∧
    (∀ tr o st' mt, attemptStep cfg env st = .done tr o st' mt →
      (o = .failed ∨ o = .skipped) → causeCount (afterLastReq tr) = 1) := by
  unfold attemptStep
  dsimp only
  split
  · exact ⟨(requestPhase_c9 cfg env st hok).1,
      fun tr o st' mt h ho => ((requestPhase_c9 cfg env st hok).2 tr o st' mt h).2 ho⟩
  · split
    · constructor
      · intro tr st' h
        cases h
      · intro tr o st' mt h ho
        cases h
        rw [afterLastReq_free]
        · rw [causeCount_append]
          have h1 : causeCount (if st.hasResponse then [Ev.releaseConn] else []) = 0 := by
            split <;> rfl
          rw [h1]
          rfl
        · intro e he
          rcases List.mem_append.mp he with he | he
          · revert he
            split
            · intro he
              simp only [List.mem_singleton] at he
              rw [he]
              rfl
            · intro he
              simp at he
          · simp only [List.mem_singleton] at he
            rw [he]
            rfl
    · exact c9_pre_wait _ _ (requestPhase_c9 cfg env _ hok).1
        (requestPhase_c9 cfg env _ hok).2

theorem causeTail_append (a b : List Ev)
    (ha : causeCount (afterLastReq a) = 0) (hb : causeCount (afterLastReq b) = 1) :
    causeCount (afterLastReq (a ++ b)) = 1 := by
  by_cases hr : ∃ e ∈ b, isReqEv e = true
  · obtain ⟨e, he, hre⟩ := hr
    rw [afterLastReq_append_req a b e he hre]
    exact hb
  · have hfree : ∀ e ∈ b, isReqEv e = false := by
      intro e he
      rcases hb2 : isReqEv e with _ | _
      · rfl
      · exact absurd ⟨e, he, hb2⟩ hr
    rw [afterLastReq_append_free a b hfree, causeCount_append]
    rw [afterLastReq_free b hfree] at hb
    omega

theorem loop_c9 (cfg : Cfg) (env : Env)
    (hok : ∀ n u k r', env.server n u k = .ok r' → r'.stopAfter = none) :
    ∀ (fuel : Nat) (st : LoopSt) (res : RunEnd),
      loop cfg env fuel st = some res →
      (res.outcome = .failed ∨ res.outcome = .skipped) →
      causeCount (afterLastReq res.trace) = 1 := by
  intro fuel
  induction fuel with
  | zero => intro st res h; simp [loop] at h
  | succ fuel ih =>
    intro st res h ho
    rcases ha : attemptStep cfg env st with ⟨tr, st'⟩ | ⟨tr, o, st', mt⟩
    · rw [loop_next cfg env fuel st st' tr ha] at h
      rcases hl : loop cfg env fuel st' with _ | r'
      · rw [hl] at h
        simp at h
      · rw [hl] at h
        simp only [Option.map_some', Option.some.injEq] at h
        have hnx := (attemptStep_c9 cfg env st hok).1 tr st' ha
        have ho' : r'.outcome = .failed ∨ r'.outcome = .skipped := by
          rw [← h] at ho
          simpa using ho
        rw [← h]
        exact causeTail_append tr r'.trace hnx.1 (ih st' r' hl ho')
    · rw [loop_done cfg env fuel st st' tr o mt ha] at h
      simp only [Option.some.injEq] at h
      have hdn := (attemptStep_c9 cfg env st hok).2 tr o st' mt ha
      rw [← h] at ho
      rw [← h]
      exact hdn (by simpa using ho)

/-- C9 (amended): provided no response stream raises `StopExtraction`
(which the source turns into a bare `return False` with no log line at
all), every invocation that returns Failed or Skipped emits exactly one
cause-describing warning after its last request — counting neither the
auxiliary challenge-detection notice nor the unknown-MIME-type notice,
and not counting the per-retry warnings that precede earlier requests. -/
theorem c9_failure_warning (cfg : Cfg) (env : Env) (fuel : Nat) (res : RunEnd)
    (hok : ∀ n u k r', env.server n u k = .ok r' → r'.stopAfter = none)
    (h : download cfg env fuel = some res)
    (ho : res.outcome = .failed ∨ res.outcome = .skipped) :
    causeCount (afterLastReq res.trace) = 1 := by
  unfold download downloadImpl at h
  rcases hl : loop cfg env fuel (initSt cfg env) with _ | r
  · rw [hl] at h
    simp at h
  · rw [hl] at h
    simp only [Option.map_some', Option.some.injEq] at h
    by_cases hdl : (r.st.downloading && !cfg.part) = true
    · rw [if_pos hdl] at h
      have ho' : r.outcome = .failed ∨ r.outcome = .skipped := by
        rw [← h] at ho
        simpa using ho
      rw [← h]
      show causeCount (afterLastReq
        (((if cfg.part && !cfg.metadata then [Ev.partEnable] else []) ++ r.trace) ++
          [Ev.removeTemp])) = 1
      have hfree : ∀ e ∈ [Ev.removeTemp], isReqEv e = false := by
        intro e he
        simp only [List.mem_singleton] at he
        rw [he]
        rfl
      rw [afterLastReq_append_free _ _ hfree, causeCount_append]
      have h1 := causeTail_append
        (if cfg.part && !cfg.metadata then [Ev.partEnable] else []) r.trace
        (by split <;> rfl) (loop_c9 cfg env hok fuel (initSt cfg env) r hl ho')
      rw [h1]
      rfl
    · rw [if_neg hdl] at h
      have ho' : r.outcome = .failed ∨ r.outcome = .skipped := by
        rw [← h] at ho
        simpa using ho
      rw [← h]
      exact causeTail_append _ _ (by split <;> rfl)
        (loop_c9 cfg env hok fuel (initSt cfg env) r hl ho')

/-- Witness for `c9_failure_warning`: a 503 with no retries left fails
after the give-up warning — exactly one cause warning after the last
request. -/
theorem c9_failure_warning_witness :
    ∃ res, download cfgPlain0 env503 3 = some res ∧ res.outcome = .failed ∧
      causeCount (afterLastReq res.trace) = 1 := by
  refine ⟨_, rfl, by decide, c9_failure_warning cfgPlain0 env503 3 _
    (fun n u k r' h => by
      simp only [env503] at h
      injection h with h2
      subst h2
      rfl)
    rfl (Or.inl (by decide))⟩

/-- Counterexample to C9 as stated: a response whose stream raises
`StopExtraction` after the first chunk makes the invocation return
`Failed` with NO warning at all in its trace (http.py lines 337-339
`return False` without logging), contradicting "no Failed/Skipped return
happens with zero warnings". -/
theorem c9_claim_counterexample :
    ∃ res, download cfgNoAdj envStop 10 = some res ∧
      res.outcome = .failed ∧
      warnCount res.trace = 0 := by
  refine ⟨_, rfl, ?_, ?_⟩ <;> decide

end HttpDL
